import Mathlib

/-!
Verification of the `manager.OrderManager` order-pricing subsystem of the
p1pay management API.  Pure parts of the Go source are translated into Lean
functions; database lookups, currency conversion, commission/VAT computation,
GeoIP resolution and payment-system handlers are collaborators and appear as
an explicit environment record.  Go float64 amounts are modelled as rationals;
Go nil-pointer dereferences and out-of-range indexing are modelled as an
explicit failure value.
-/

namespace P1pay

/-- Modelled from the spec: the shared amount-formatting rule (`FormatAmount`,
whose definition lives outside the provided sources) rounds a monetary value
to a fixed precision of two decimal places. -/
def FormatAmount (q : ℚ) : ℚ := (round (q * 100) : ℚ) / 100

/- ---------------------------------------------------------------------
   SHA-256 over byte lists, used by `checkSignature` (`crypto/sha256`).
   Round constants and the initial hash are derived, as in the standard,
   from the fractional parts of square and cube roots of the first primes.
--------------------------------------------------------------------- -/

def m32 : Nat := 4294967296

def rotr32 (n x : Nat) : Nat := ((x >>> n) ||| (x <<< (32 - n))) % m32

def bigSigma0 (x : Nat) : Nat := (rotr32 2 x) ^^^ (rotr32 13 x) ^^^ (rotr32 22 x)

def bigSigma1 (x : Nat) : Nat := (rotr32 6 x) ^^^ (rotr32 11 x) ^^^ (rotr32 25 x)

def smallSigma0 (x : Nat) : Nat := (rotr32 7 x) ^^^ (rotr32 18 x) ^^^ (x >>> 3)

def smallSigma1 (x : Nat) : Nat := (rotr32 17 x) ^^^ (rotr32 19 x) ^^^ (x >>> 10)

def chFn (e f g : Nat) : Nat := (e &&& f) ^^^ ((e ^^^ 4294967295) &&& g)

def majFn (a b c : Nat) : Nat := (a &&& b) ^^^ (a &&& c) ^^^ (b &&& c)

def icbrtGo (n : Nat) : Nat → Nat → Nat → Nat
  | _, lo, 0 => lo
  | hi, lo, fuel + 1 =>
    if lo + 1 ≥ hi then lo
    else
      let m := (lo + hi) / 2
      if m * m * m ≤ n then icbrtGo n hi m fuel else icbrtGo n m lo fuel

/-- Integer cube root by binary search. -/
def icbrt (n : Nat) : Nat := icbrtGo n (n + 1) 0 200

def firstPrimes (k : Nat) : List Nat :=
  ((List.range 320).filter (fun n => decide (Nat.Prime n))).take k

/-- SHA-256 initial hash words: fractional parts of square roots of 2..19. -/
def sha256InitH : List Nat := (firstPrimes 8).map (fun p => Nat.sqrt (p * 2 ^ 64) % m32)

/-- SHA-256 round constants: fractional parts of cube roots of the first 64 primes. -/
def sha256K : List Nat := (firstPrimes 64).map (fun p => icbrt (p * 2 ^ 96) % m32)

/-- Big-endian byte rendering of `n` on `k` bytes. -/
def beBytes : Nat → Nat → List Nat
  | 0, _ => []
  | k + 1, n => beBytes k (n / 256) ++ [n % 256]

/-- SHA-256 message padding: append `0x80`, zeros, and the 64-bit bit length. -/
def sha256pad (msg : List Nat) : List Nat :=
  let len := msg.length
  msg ++ [128] ++ List.replicate ((119 - len % 64) % 64) 0 ++ beBytes 8 (len * 8)

def beWord (a b c d : Nat) : Nat := ((a * 256 + b) * 256 + c) * 256 + d

def toWords : List Nat → List Nat
  | a :: b :: c :: d :: rest => beWord a b c d :: toWords rest
  | _ => []

def chunks16 : List Nat → List (List Nat)
  | [] => []
  | w :: ws => ((w :: ws).take 16) :: chunks16 ((w :: ws).drop 16)
termination_by l => l.length
decreasing_by simp [List.length_drop]; omega

/-- Extend a 16-word block to the 64-word message schedule. -/
def extendW (block : List Nat) : Array Nat :=
  (List.range 48).foldl
    (fun w i =>
      let t := i + 16
      let s0 := smallSigma0 (w.getD (t - 15) 0)
      let s1 := smallSigma1 (w.getD (t - 2) 0)
      w.push ((w.getD (t - 16) 0 + s0 + w.getD (t - 7) 0 + s1) % m32))
    block.toArray

/-- One SHA-256 compression round over the 8-word state. -/
def sha256Round (w : Array Nat) (st : List Nat) (i : Nat) : List Nat :=
  match st with
  | [a, b, c, d, e, f, g, hh] =>
    let t1 := (hh + bigSigma1 e + chFn e f g + sha256K.getD i 0 + w.getD i 0) % m32
    let t2 := (bigSigma0 a + majFn a b c) % m32
    [(t1 + t2) % m32, a, b, c, (d + t1) % m32, e, f, g]
  | other => other

def compressBlock (h : List Nat) (block : List Nat) : List Nat :=
  let w := extendW block
  let final := (List.range 64).foldl (sha256Round w) h
  (h.zip final).map (fun p => (p.1 + p.2) % m32)

/-- SHA-256 digest (32 bytes) of a byte list. -/
def sha256 (msg : List Nat) : List Nat :=
  let blocks := chunks16 (toWords (sha256pad msg))
  ((blocks.foldl compressBlock sha256InitH).map (fun x => beBytes 4 x)).flatten

/-- UTF-8 bytes of a string, as naturals. -/
def strBytes (s : String) : List Nat := s.toUTF8.toList.map (fun b => b.toNat)

/- ---------------------------------------------------------------------
   Data model (`database/model` package; the package itself is not among
   the provided sources, so field sets are taken from their uses in
   `manager/order.go` and from the spec's data-model section).
--------------------------------------------------------------------- -/

/-- A localized name pair, as read from geo records (`Names["en"]`, `Names["ru"]`). -/
structure NameEnRu where
  en : String
  ru : String
deriving DecidableEq, Repr

/-- `model.Currency`: ISO numeric and alpha-3 codes. -/
structure Currency where
  codeInt : Int
  codeA3 : String
deriving DecidableEq, Repr

/-- `model.Merchant` fields used by the order manager. -/
structure Merchant where
  currency : Currency
  isVatEnabled : Bool
  isCommissionToUserEnabled : Bool
deriving DecidableEq, Repr

/-- `model.FixedPackage`: a fixed price/currency offer of a project region. -/
structure FixedPackage where
  name : String
  currencyInt : Int
  currency : Currency
  price : ℚ
deriving DecidableEq, Repr

/-- `model.OrderFixedPackage`: the fixed-package reference stored on an order. -/
structure OrderFixedPackage where
  id : Nat
  region : String
  name : String
  currencyInt : Int
  price : ℚ
deriving DecidableEq, Repr

/-- `model.ProjectPaymentModes`: a project payment-method configuration entry. -/
structure ProjectPaymentModes where
  id : String
  addedAt : Nat
deriving DecidableEq, Repr

/-- `model.PaymentSystem` fields used by the order manager. -/
structure PaymentSystem where
  isActive : Bool
  accountingCurrency : Currency
deriving DecidableEq, Repr

/-- `model.PaymentMethod` fields used by the order manager.  The payment
system is a nilable pointer in the source. -/
structure PaymentMethod where
  id : String
  name : String
  groupAlias : String
  params : String
  isActive : Bool
  paymentSystem : Option PaymentSystem
  currency : Currency
  minPaymentAmount : ℚ
  maxPaymentAmount : ℚ
deriving DecidableEq, Repr

/-- `model.Project` fields used by the order manager.  The fixed-package
catalog and the payment-method table are keyed maps, modelled as
association lists. -/
structure Project where
  id : String
  name : String
  isActive : Bool
  merchant : Merchant
  limitsCurrency : Currency
  minPaymentAmount : ℚ
  maxPaymentAmount : ℚ
  callbackCurrency : Currency
  isAllowDynamicNotifyUrls : Bool
  isAllowDynamicRedirectUrls : Bool
  onlyFixedAmounts : Bool
  fixedPackage : List (String × List FixedPackage)
  paymentMethods : List (String × List ProjectPaymentModes)
  secretKey : String
deriving DecidableEq, Repr

/-- `model.OrderScalar`: the scalar order request.  The raw digest bytes of
the request signature are modelled as a byte list (a Go string is a byte
sequence). -/
structure OrderScalar where
  projectId : String
  amount : ℚ
  currency : Option String
  region : Option String
  createOrderIp : String
  rawRequestParams : List (String × String)
  signature : Option (List Nat)
  paymentMethod : Option String
  orderId : Option String
  account : Option String
  description : Option String
  urlVerify : Option String
  urlNotify : Option String
  urlSuccess : Option String
  urlFail : Option String
  payerPhone : Option String
  payerEmail : Option String
  isJsonRequest : Bool
deriving DecidableEq, Repr

/-- `model.PayerData` as assembled from the geo record. -/
structure PayerData where
  ip : String
  countryCodeA2 : String
  countryName : NameEnRu
  city : NameEnRu
  subdivision : String
  timezone : String
  phone : Option String
  email : Option String
deriving DecidableEq, Repr

/-- `model.ProjectOrder`: the project reference embedded in an order. -/
structure ProjectOrder where
  id : String
  name : String
  merchant : Merchant
deriving DecidableEq, Repr

/-- `model.OrderPaymentMethod`: the payment-method reference embedded in an order. -/
structure OrderPaymentMethod where
  id : String
  name : String
  params : String
  paymentSystem : Option PaymentSystem
  groupAlias : String
deriving DecidableEq, Repr

/-- `model.CommissionOrder`: the commission triple returned by the
commission manager. -/
structure CommissionOrder where
  pspCommission : ℚ
  pmCommission : ℚ
  toUserCommission : ℚ
deriving DecidableEq, Repr

/-- `model.Order` fields touched by the order manager. -/
structure Order where
  id : String
  project : ProjectOrder
  description : String
  projectOrderId : Option String
  projectAccount : Option String
  projectIncomeAmount : ℚ
  projectIncomeCurrency : Option Currency
  projectOutcomeAmount : ℚ
  projectOutcomeCurrency : Currency
  payerData : PayerData
  status : Int
  createdAt : Nat
  updatedAt : Nat
  isJsonRequest : Bool
  fixedPackage : Option OrderFixedPackage
  amountInMerchantAccountingCurrency : ℚ
  vatAmount : ℚ
  paymentMethod : Option OrderPaymentMethod
  paymentMethodOutcomeAmount : ℚ
  paymentMethodOutcomeCurrency : Option Currency
  projectFeeAmount : ℚ
  pspFeeAmount : ℚ
  paymentMethodFeeAmount : ℚ
  toPayerFeeAmount : ℚ
  paymentMethodIncomeAmount : ℚ
  paymentMethodIncomeCurrencyA3 : String
  paymentMethodIncomeCurrency : Option Currency
  amountInPSPAccountingCurrency : ℚ
  amountOutMerchantAccountingCurrency : ℚ
  amountInPaymentSystemAccountingCurrency : ℚ
deriving DecidableEq, Repr

/-- `model.OrderPaymentNotification`: the payment-system callback payload. -/
structure OrderPaymentNotification where
  id : String
  body : String
deriving DecidableEq, Repr

/-- A GeoIP city record (`geoip2.City`), reduced to the fields the order
manager reads; subdivisions carry their ISO codes. -/
structure GeoCity where
  countryIsoCode : String
  countryName : NameEnRu
  cityName : NameEnRu
  subdivisions : List String
  timezone : String
deriving DecidableEq, Repr

/-- Modelled from the spec: order status enumeration
(New, PaymentSystemCreate, PaymentSystemReject, PaymentSystemComplete,
Complete); the numeric values of the missing `model` package are
represented by distinct integers. -/
def OrderStatusNew : Int := 0

def OrderStatusPaymentSystemCreate : Int := 1

def OrderStatusPaymentSystemReject : Int := 2

def OrderStatusPaymentSystemComplete : Int := 3

def OrderStatusComplete : Int := 4

/- ---------------------------------------------------------------------
   Error messages (constants of `manager/order.go`).
--------------------------------------------------------------------- -/

def orderErrorProjectNotFound : String := "project with specified identifier not found"

def orderErrorProjectInactive : String := "project with specified identifier is inactive"

def orderErrorPaymentMethodNotAllowed : String := "payment method not specified for project"

def orderErrorPaymentMethodNotFound : String := "payment method with specified not found"

def orderErrorPaymentMethodInactive : String := "payment method with specified is inactive"

def orderErrorPaymentSystemNotFound : String := "payment system for specified payment method not found"

def orderErrorPaymentSystemInactive : String := "payment system for specified payment method is inactive"

def orderErrorPayerRegionUnknown : String := "payer region can't be found"

def orderErrorFixedPackageForRegionNotFound : String := "project not have fixed packages for payer region"

def orderErrorFixedPackageNotFound : String := "project not have fixed package with specified amount or currency"

def orderErrorProjectOrderIdIsDuplicate : String := "request with specified project order identifier processed early"

def orderErrorDynamicNotifyUrlsNotAllowed : String := "dynamic verify url or notify url not allowed for project"

def orderErrorDynamicRedirectUrlsNotAllowed : String := "dynamic payer redirect urls not allowed for project"

def orderErrorCurrencyNotFound : String := "currency received from request not found"

def orderErrorAmountLowerThanMinAllowed : String := "order amount is lower than min allowed payment amount for project"

def orderErrorAmountGreaterThanMaxAllowed : String := "order amount is greater than max allowed payment amount for project"

def orderErrorAmountLowerThanMinAllowedPaymentMethod : String := "order amount is lower than min allowed payment amount for payment method"

def orderErrorAmountGreaterThanMaxAllowedPaymentMethod : String := "order amount is greater than max allowed payment amount for payment method"

def orderErrorCanNotCreate : String := "order can't create. try request later"

def orderErrorSignatureInvalid : String := "order request signature is invalid"

def orderErrorNotFound : String := "order with specified identifier not found"

/-- `orderErrorOrderAlreadyHasEndedStatus` with its `%d` placeholder filled in. -/
def orderErrorOrderAlreadyHasEndedStatusMsg (s : Int) : String :=
  "order with specified identifier already ended (status is " ++ toString s ++ ")"

def orderErrorOrderPaymentMethodIncomeCurrencyNotFound : String := "unknown currency received from payment system"

def orderErrorOrderPSPAccountingCurrencyNotFound : String := "unknown PSP accounting currency"

def orderSignatureElementsGlue : String := "|"

def orderDefaultDescriptionPrefixStr : String := "Payment by order # "

/- ---------------------------------------------------------------------
   Failure model: Go errors versus Go runtime panics (nil-pointer
   dereference, out-of-range indexing).
--------------------------------------------------------------------- -/

/-- A pipeline failure: a returned Go error, or a runtime panic. -/
inductive PFail where
  | fail (msg : String)
  | nilPanic
deriving DecidableEq, Repr

/-- Dereference a nilable value; `none` is a Go nil-pointer panic. -/
def deref {α : Type} (x : Option α) : Except PFail α :=
  match x with
  | some v => Except.ok v
  | none => Except.error PFail.nilPanic

/-- Lift a collaborator result, turning its error into a pipeline failure. -/
def liftE {α : Type} (x : Except String α) : Except PFail α :=
  match x with
  | Except.ok v => Except.ok v
  | Except.error e => Except.error (PFail.fail e)

/-- Association-list lookup, mirroring Go map indexing. -/
def alookup {α : Type} : List (String × α) → String → Option α
  | [], _ => none
  | p :: ps, k => if p.1 == k then some p.2 else alookup ps k

/-- Association-list insertion with overwrite, mirroring Go map assignment. -/
def ainsert {α : Type} : List (String × α) → String → α → List (String × α)
  | [], k, v => [(k, v)]
  | p :: ps, k, v => if p.1 == k then (k, v) :: ps else p :: ainsert ps k v

/- ---------------------------------------------------------------------
   The environment: database repositories and collaborator managers
   (currency rates, commissions, VAT, GeoIP, payment-system handlers),
   per the spec's external-interface contracts.
--------------------------------------------------------------------- -/

structure Env where
  findProjectById : String → Option Project
  findCurrencyByCodeA3 : String → Option Currency
  convert : Int → Int → ℚ → Except String ℚ
  calculateCommission : String → String → ℚ → Except String CommissionOrder
  calculateVat : String → String → ℚ → Except String ℚ
  geoCity : String → Except String GeoCity
  findPaymentMethodById : String → Option PaymentMethod
  findOrderByProjectOrderId : String → Option Order
  findOrderById : String → Option Order
  pspAccountingCurrency : Option Currency
  getPaymentHandler : Order → Except String Unit
  processPayment : Order → OrderPaymentNotification → Order × Option String
  insertOk : Order → Bool
  updateOk : Order → Bool
  now : Nat
  newObjectId : String

/-- The transient `check` bundle threaded through the validation steps. -/
structure Check where
  order : OrderScalar
  project : Project
  oCurrency : Option Currency
  paymentMethod : Option PaymentMethod
deriving Repr

/- ---------------------------------------------------------------------
   Validation helpers of `manager/order.go`.
--------------------------------------------------------------------- -/

/-- The signature recomputation of `checkSignature`: collect the raw request
parameter keys, sort them, join `key=value` pairs with the glue, append the
glue and the project secret, and hash with SHA-256. -/
def computeSignature (params : List (String × String)) (secret : String) : List Nat :=
  let keys := (params.map Prod.fst).mergeSort (fun a b => decide (a ≤ b))
  let gs := keys.map (fun k => k ++ "=" ++ ((alookup params k).getD ""))
  sha256 (strBytes (String.intercalate orderSignatureElementsGlue gs
    ++ orderSignatureElementsGlue ++ secret))

/-- `OrderManager.checkSignature`: recompute and byte-compare against the
supplied signature (which the source dereferences unconditionally). -/
def checkSignature (c : Check) : Except PFail Unit := do
  let sig ← deref c.order.signature
  if computeSignature c.order.rawRequestParams c.project.secretKey ≠ sig then
    Except.error (PFail.fail orderErrorSignatureInvalid)
  else Except.ok ()

/-- `OrderManager.getPaymentMethod`: among the configurations registered
under the requested name, keep the one with the latest `AddedAt` (the loop
replaces the candidate only on a strictly later timestamp). -/
def getPaymentMethod (order : OrderScalar)
    (pms : List (String × List ProjectPaymentModes)) : Except PFail ProjectPaymentModes := do
  let name ← deref order.paymentMethod
  match alookup pms name with
  | none => Except.error (PFail.fail orderErrorPaymentMethodNotAllowed)
  | some [] => Except.error (PFail.fail orderErrorPaymentMethodNotAllowed)
  | some (x :: xs) =>
    Except.ok (xs.foldl (fun opm ppm => if opm.addedAt < ppm.addedAt then ppm else opm) x)

/-- `OrderManager.checkPaymentMethod`: resolve the configuration, then the
concrete payment method and its payment system, each of which must exist and
be active. -/
def checkPaymentMethod (env : Env) (c : Check) : Except PFail PaymentMethod := do
  let opm ← getPaymentMethod c.order c.project.paymentMethods
  match env.findPaymentMethodById opm.id with
  | none => Except.error (PFail.fail orderErrorPaymentMethodNotFound)
  | some pm =>
    if pm.isActive = false then Except.error (PFail.fail orderErrorPaymentMethodInactive)
    else match pm.paymentSystem with
    | none => Except.error (PFail.fail orderErrorPaymentSystemNotFound)
    | some ps =>
      if ps.isActive = false then Except.error (PFail.fail orderErrorPaymentSystemInactive)
      else Except.ok pm

/-- `OrderManager.checkProjectLimits`: convert the amount into the project
limit currency when the order currency differs, then compare against the
project's min/max payment amounts. -/
def checkProjectLimits (env : Env) (c : Check) : Except PFail Unit := do
  let cAmount ← (match c.oCurrency with
    | some oc =>
      if oc.codeA3 ≠ c.project.limitsCurrency.codeA3 then
        liftE (env.convert oc.codeInt c.project.limitsCurrency.codeInt c.order.amount)
      else Except.ok c.order.amount
    | none => Except.ok c.order.amount)
  if cAmount < c.project.minPaymentAmount then
    Except.error (PFail.fail orderErrorAmountLowerThanMinAllowed)
  else if cAmount > c.project.maxPaymentAmount then
    Except.error (PFail.fail orderErrorAmountGreaterThanMaxAllowed)
  else Except.ok ()

/-- `OrderManager.checkPaymentMethodLimits`: convert the amount into the
payment method's currency when it differs, compare against the method's
limits, and return the outcome amount/currency pair (`pmOutcomeData`). -/
def checkPaymentMethodLimits (env : Env) (c : Check) : Except PFail (ℚ × Currency) := do
  let pm ← deref c.paymentMethod
  let cAmount ← (match c.oCurrency with
    | some oc =>
      if oc.codeA3 ≠ pm.currency.codeA3 then
        liftE (env.convert oc.codeInt pm.currency.codeInt c.order.amount)
      else Except.ok c.order.amount
    | none => Except.ok c.order.amount)
  if cAmount < pm.minPaymentAmount then
    Except.error (PFail.fail orderErrorAmountLowerThanMinAllowedPaymentMethod)
  else if cAmount > pm.maxPaymentAmount then
    Except.error (PFail.fail orderErrorAmountGreaterThanMaxAllowedPaymentMethod)
  else Except.ok (cAmount, pm.currency)

/-- The region rule of `getOrderFixedPackage`: the explicit request region
when non-nil and non-empty, else the GeoIP country code (a nil region and an
explicit empty region are indistinguishable here, both falling back to the
country code). -/
def resolveRegion (r : Option String) (g : GeoCity) : String :=
  let region0 := match r with
    | some rr => rr
    | none => ""
  if region0 = "" then g.countryIsoCode else region0

/-- `OrderManager.getOrderFixedPackage`: resolve the region, look up the
region's fixed-package list and scan it for an exact price and currency
match; the loop keeps the last match and its index.  The order currency is
dereferenced only when a package's price matches (Go `||` short-circuit). -/
def getOrderFixedPackage (env : Env) (c : Check) : Except PFail (GeoCity × OrderFixedPackage) := do
  match env.geoCity c.order.createOrderIp with
  | Except.error _ => Except.error (PFail.fail orderErrorPayerRegionUnknown)
  | Except.ok gRecord =>
    match alookup c.project.fixedPackage (resolveRegion c.order.region gRecord) with
    | none => Except.error (PFail.fail orderErrorFixedPackageForRegionNotFound)
    | some [] => Except.error (PFail.fail orderErrorFixedPackageForRegionNotFound)
    | some (f0 :: fs) => do
      let found ← ((f0 :: fs).enum.foldlM
        (fun (acc : Option (Nat × FixedPackage)) p => do
          if p.2.price ≠ c.order.amount then pure acc
          else do
            let cur ← deref c.order.currency
            if p.2.currency.codeA3 ≠ cur then pure acc else pure (some p))
        (none : Option (Nat × FixedPackage)) : Except PFail (Option (Nat × FixedPackage)))
      match found with
      | none => Except.error (PFail.fail orderErrorFixedPackageNotFound)
      | some (i, ofp) =>
        Except.ok (gRecord,
          { id := i, region := resolveRegion c.order.region gRecord, name := ofp.name,
            currencyInt := ofp.currencyInt, price := ofp.price })

/-- `OrderManager.checkProjectOrderIdUnique`: an already existing order with
the same external project order id is a duplicate. -/
def checkProjectOrderIdUnique (env : Env) (order : OrderScalar) : Except PFail Unit :=
  match order.orderId with
  | none => Except.ok ()
  | some oid =>
    match env.findOrderByProjectOrderId oid with
    | none => Except.ok ()
    | some _ => Except.error (PFail.fail orderErrorProjectOrderIdIsDuplicate)

/- ---------------------------------------------------------------------
   The order-creation pipeline (`OrderManager.Process`).
--------------------------------------------------------------------- -/

/-- The all-zero payer data record (Go zero value). -/
def emptyPayerData : PayerData :=
  { ip := "", countryCodeA2 := "", countryName := { en := "", ru := "" },
    city := { en := "", ru := "" }, subdivision := "", timezone := "",
    phone := none, email := none }

/-- The all-zero currency record (Go zero value). -/
def emptyCurrency : Currency := { codeInt := 0, codeA3 := "" }

/-- The all-zero merchant record (Go zero value). -/
def emptyMerchant : Merchant :=
  { currency := emptyCurrency, isVatEnabled := false, isCommissionToUserEnabled := false }

/-- The all-zero order record (Go zero value); `Process` assembles its new
order by setting fields of this base, mirroring the source's struct literal. -/
def emptyOrder : Order :=
  { id := "",
    project := { id := "", name := "", merchant := emptyMerchant },
    description := "", projectOrderId := none, projectAccount := none,
    projectIncomeAmount := 0, projectIncomeCurrency := none,
    projectOutcomeAmount := 0, projectOutcomeCurrency := emptyCurrency,
    payerData := emptyPayerData, status := 0, createdAt := 0, updatedAt := 0,
    isJsonRequest := false, fixedPackage := none,
    amountInMerchantAccountingCurrency := 0, vatAmount := 0,
    paymentMethod := none, paymentMethodOutcomeAmount := 0,
    paymentMethodOutcomeCurrency := none, projectFeeAmount := 0,
    pspFeeAmount := 0, paymentMethodFeeAmount := 0, toPayerFeeAmount := 0,
    paymentMethodIncomeAmount := 0, paymentMethodIncomeCurrencyA3 := "",
    paymentMethodIncomeCurrency := none, amountInPSPAccountingCurrency := 0,
    amountOutMerchantAccountingCurrency := 0,
    amountInPaymentSystemAccountingCurrency := 0 }

/-- The copy of the request placed in the `check` bundle: only amount,
currency, region, ip, raw parameters, signature and payment method are
carried over; the remaining fields keep their zero values. -/
def checkOrderCopy (order : OrderScalar) : OrderScalar :=
  { projectId := "", amount := order.amount, currency := order.currency,
    region := order.region, createOrderIp := order.createOrderIp,
    rawRequestParams := order.rawRequestParams, signature := order.signature,
    paymentMethod := order.paymentMethod, orderId := none, account := none,
    description := none, urlVerify := none, urlNotify := none,
    urlSuccess := none, urlFail := none, payerPhone := none,
    payerEmail := none, isJsonRequest := false }

/-- `OrderManager.Process` up to (but excluding) the repository insert: the
validation pipeline and the assembly of the new order.  The GeoIP record is
fetched only on the fixed-amounts branch yet dereferenced unconditionally
during assembly (and in the VAT branch), which the model renders as
`PFail.nilPanic`; the two currency conversions feeding
`AmountInMerchantAccountingCurrency` and `ProjectOutcomeAmount` discard
their error (`_` in the source), so a failed conversion contributes the
zero value. -/
def processCore (env : Env) (order : OrderScalar) : Except PFail Order := do
  let p ← (match env.findProjectById order.projectId with
    | none => Except.error (PFail.fail orderErrorProjectNotFound)
    | some p => Except.ok p)
  let _ ← (if p.isActive = false then
      Except.error (PFail.fail orderErrorProjectInactive)
    else Except.ok ())
  let oCurrency ← (match order.currency with
    | none => Except.ok (none : Option Currency)
    | some cc =>
      match env.findCurrencyByCodeA3 cc with
      | none => Except.error (PFail.fail orderErrorCurrencyNotFound)
      | some cur => Except.ok (some cur))
  let chk : Check :=
    { order := checkOrderCopy order, project := p, oCurrency := oCurrency,
      paymentMethod := none }
  let _ ← (if order.signature.isSome then checkSignature chk else Except.ok ())
  let pm : Option PaymentMethod ← (match order.paymentMethod with
    | none => pure none
    | some _ => do
      let x ← checkPaymentMethod env chk
      pure (some x))
  let chk := { chk with paymentMethod := pm }
  let gofp : Option GeoCity × Option OrderFixedPackage ←
    (if p.onlyFixedAmounts = true then do
      let r ← getOrderFixedPackage env chk
      pure (some r.1, some r.2)
    else pure (none, none))
  let gRecord := gofp.1
  let ofp := gofp.2
  let _ ← checkProjectLimits env chk
  let blockRes : Option (ℚ × Currency) × ℚ × Option CommissionOrder ←
    (match order.paymentMethod with
    | none => pure (none, (0 : ℚ), (none : Option CommissionOrder))
    | some _ => do
      let pmOut ← checkPaymentMethodLimits env chk
      let pmo ← deref pm
      let commissions ← liftE (env.calculateCommission p.id pmo.id pmOut.1)
      let pmOutAmount1 :=
        if p.merchant.isCommissionToUserEnabled = true then
          pmOut.1 + commissions.toUserCommission
        else pmOut.1
      let vg ← (if p.merchant.isVatEnabled = true then do
          let g ← deref gRecord
          let sub ← deref g.subdivisions.head?
          let v ← liftE (env.calculateVat g.countryIsoCode sub pmOut.1)
          pure (v, pmOutAmount1 + v)
        else pure ((0 : ℚ), pmOutAmount1))
      pure (some (vg.2, pmOut.2), vg.1, some commissions))
  let pmOutcomeData := blockRes.1
  let vatAmount := blockRes.2.1
  let commissions := blockRes.2.2
  let _ ← checkProjectOrderIdUnique env order
  let _ ← (if (order.urlVerify.isSome || order.urlNotify.isSome)
      && !p.isAllowDynamicNotifyUrls then
    Except.error (PFail.fail orderErrorDynamicNotifyUrlsNotAllowed)
  else Except.ok ())
  let _ ← (if (order.urlSuccess.isSome || order.urlFail.isSome)
      && !p.isAllowDynamicRedirectUrls then
    Except.error (PFail.fail orderErrorDynamicRedirectUrlsNotAllowed)
  else Except.ok ())
  let oc ← deref oCurrency
  let mACAmount := (env.convert oc.codeInt p.merchant.currency.codeInt order.amount).toOption.getD 0
  let pOutAmount := (env.convert oc.codeInt p.callbackCurrency.codeInt order.amount).toOption.getD 0
  let id := env.newObjectId
  let g ← deref gRecord
  let sub ← deref g.subdivisions.head?
  let nOrder0 : Order := { emptyOrder with
    id := id,
    project := { id := p.id, name := p.name, merchant := p.merchant },
    description := orderDefaultDescriptionPrefixStr ++ id,
    projectOrderId := order.orderId,
    projectAccount := order.account,
    projectIncomeAmount := FormatAmount order.amount,
    projectIncomeCurrency := oCurrency,
    projectOutcomeAmount := FormatAmount pOutAmount,
    projectOutcomeCurrency := p.callbackCurrency,
    payerData :=
      { ip := order.createOrderIp, countryCodeA2 := g.countryIsoCode,
        countryName := g.countryName, city := g.cityName, subdivision := sub,
        timezone := g.timezone, phone := order.payerPhone,
        email := order.payerEmail },
    status := OrderStatusNew,
    createdAt := env.now,
    isJsonRequest := order.isJsonRequest,
    fixedPackage := ofp,
    amountInMerchantAccountingCurrency := FormatAmount mACAmount,
    vatAmount := FormatAmount vatAmount }
  let nOrder1 := match order.description with
    | some d => { nOrder0 with description := d }
    | none => nOrder0
  match order.paymentMethod with
  | none => Except.ok nOrder1
  | some _ => do
    let pmo ← deref pm
    let pmOut ← deref pmOutcomeData
    let n2 := { nOrder1 with
      paymentMethod := some
        { id := pmo.id, name := pmo.name, params := pmo.params,
          paymentSystem := pmo.paymentSystem, groupAlias := pmo.groupAlias },
      paymentMethodOutcomeAmount := FormatAmount pmOut.1,
      paymentMethodOutcomeCurrency := some pmOut.2 }
    match commissions with
    | none => Except.ok n2
    | some com => do
      let n3 := { n2 with
        projectFeeAmount := FormatAmount (com.pspCommission + com.pmCommission),
        paymentMethodFeeAmount := FormatAmount com.pmCommission }
      let pspConv ← liftE (env.convert pmo.currency.codeInt p.merchant.currency.codeInt com.pmCommission)
      let n4 := { n3 with pspFeeAmount := FormatAmount pspConv }
      let n5 :=
        if p.merchant.isCommissionToUserEnabled = true then
          let toPayer := FormatAmount com.toUserCommission
          { n4 with toPayerFeeAmount := toPayer,
                    projectFeeAmount := FormatAmount (n4.projectFeeAmount - toPayer) }
        else n4
      let prjConv ← liftE (env.convert pmo.currency.codeInt p.merchant.currency.codeInt n5.projectFeeAmount)
      Except.ok { n5 with projectFeeAmount := FormatAmount prjConv }

/-- `OrderManager.Process`: run the pipeline and insert the assembled order;
an insert failure is masked as the generic creation error.  The second
component lists the orders actually persisted by the call. -/
def Process (env : Env) (order : OrderScalar) : Except PFail Order × List Order :=
  match processCore env order with
  | Except.error e => (Except.error e, [])
  | Except.ok n =>
    if env.insertOk n then (Except.ok n, [n])
    else (Except.error (PFail.fail orderErrorCanNotCreate), [])

/- ---------------------------------------------------------------------
   Payment finalization (`OrderManager.ProcessNotifyPayment`).
--------------------------------------------------------------------- -/

/-- Placeholder for the verbatim repository error propagated when the final
order update fails (the message is produced by the database driver). -/
def dbUpdateErrorMsg : String := "repository update failed"

/-- `OrderManager.processNotifyPaymentAmounts`: resolve the income currency
reported by the payment system and recompute the project outcome, PSP
accounting, merchant accounting and payment-system accounting amounts. -/
def processNotifyPaymentAmounts (env : Env) (o : Order) : Except PFail Order := do
  let o := { o with
    paymentMethodIncomeCurrency := env.findCurrencyByCodeA3 o.paymentMethodIncomeCurrencyA3 }
  match o.paymentMethodIncomeCurrency with
  | none => Except.error (PFail.fail orderErrorOrderPaymentMethodIncomeCurrencyNotFound)
  | some c => do
    let poa ← liftE (env.convert c.codeInt o.projectOutcomeCurrency.codeInt o.paymentMethodIncomeAmount)
    let o := { o with projectOutcomeAmount := poa }
    match env.pspAccountingCurrency with
    | none => Except.error (PFail.fail orderErrorOrderPSPAccountingCurrencyNotFound)
    | some psp => do
      let v1 ← liftE (env.convert c.codeInt psp.codeInt o.paymentMethodIncomeAmount)
      let o := { o with amountInPSPAccountingCurrency := v1 }
      let v2 ← liftE (env.convert c.codeInt o.project.merchant.currency.codeInt o.paymentMethodIncomeAmount)
      let o := { o with amountOutMerchantAccountingCurrency := v2 }
      let opm ← deref o.paymentMethod
      let ps ← deref opm.paymentSystem
      let v3 ← liftE (env.convert c.codeInt ps.accountingCurrency.codeInt o.paymentMethodIncomeAmount)
      Except.ok { o with amountInPaymentSystemAccountingCurrency := v3 }

/-- The order as it stands after the handler verdict is recorded:
`PaymentSystemReject` when the handler returned an error,
`PaymentSystemComplete` otherwise (the status assignment of
`ProcessNotifyPayment`). -/
def notifyStatusOrder (env : Env) (o : Order) (opn : OrderPaymentNotification) : Order :=
  { (env.processPayment o opn).1 with
    status := if (env.processPayment o opn).2.isSome then OrderStatusPaymentSystemReject
      else OrderStatusPaymentSystemComplete }

/-- `OrderManager.ProcessNotifyPayment`: find the order, require the
pre-notification status, delegate to the payment-system handler, record
reject/complete according to the handler verdict, recompute amounts and
persist.  The result mirrors the Go `(order, error)` pair; the second
component lists the orders actually persisted by the call. -/
def ProcessNotifyPayment (env : Env) (opn : OrderPaymentNotification) :
    (Option Order × Option PFail) × List Order :=
  match env.findOrderById opn.id with
  | none => ((none, some (PFail.fail orderErrorNotFound)), [])
  | some o =>
    if o.status ≠ OrderStatusPaymentSystemCreate then
      ((none, some (PFail.fail (orderErrorOrderAlreadyHasEndedStatusMsg o.status))), [])
    else
      match env.getPaymentHandler o with
      | Except.error e => ((none, some (PFail.fail e)), [])
      | Except.ok _ =>
        match processNotifyPaymentAmounts env (notifyStatusOrder env o opn) with
        | Except.error e => ((none, some e), [])
        | Except.ok o3 =>
          let o4 := { o3 with updatedAt := env.now }
          if env.updateOk o4 then
            ((some o4, ((env.processPayment o opn).2).map PFail.fail), [o4])
          else ((none, some (PFail.fail dbUpdateErrorMsg)), [])

/- ---------------------------------------------------------------------
   Fee recomputation on payment-form submission
   (`OrderManager.modifyOrderAfterOrderFormSubmit`).
--------------------------------------------------------------------- -/

/-- The all-zero scalar order request (Go zero value). -/
def emptyOrderScalar : OrderScalar :=
  { projectId := "", amount := 0, currency := none, region := none,
    createOrderIp := "", rawRequestParams := [], signature := none,
    paymentMethod := none, orderId := none, account := none,
    description := none, urlVerify := none, urlNotify := none,
    urlSuccess := none, urlFail := none, payerPhone := none,
    payerEmail := none, isJsonRequest := false }

/-- `OrderManager.modifyOrderAfterOrderFormSubmit`: when the submitted
payment method differs from the one on the order, re-run the method limit
check and recompute commissions, VAT and the outcome amount.  The error of
`CalculateCommission` is never inspected in the source, so a failed
commission computation surfaces as a nil dereference. -/
def modifyOrderAfterOrderFormSubmit (env : Env) (o : Order) (pm : PaymentMethod) :
    Except PFail Order := do
  if (o.paymentMethod.map OrderPaymentMethod.id) = some pm.id then Except.ok o
  else do
    let p ← (match env.findProjectById o.project.id with
      | none => Except.error (PFail.fail orderErrorProjectNotFound)
      | some p => Except.ok p)
    let chk : Check :=
      { order := { emptyOrderScalar with amount := o.projectIncomeAmount },
        project := p, oCurrency := o.projectIncomeCurrency,
        paymentMethod := some pm }
    let pmOut ← checkPaymentMethodLimits env chk
    let commissions ← deref (env.calculateCommission o.project.id pm.id pmOut.1).toOption
    let o1 := { o with
      projectFeeAmount := FormatAmount (commissions.pspCommission + commissions.pmCommission),
      paymentMethodFeeAmount := FormatAmount commissions.pmCommission }
    let pspConv ← liftE (env.convert pm.currency.codeInt p.merchant.currency.codeInt commissions.pmCommission)
    let o2 := { o1 with pspFeeAmount := FormatAmount pspConv }
    let toUser := FormatAmount commissions.toUserCommission
    let o3 :=
      if o.project.merchant.isCommissionToUserEnabled = true then
        { o2 with toPayerFeeAmount := toUser,
                  projectFeeAmount := FormatAmount (o2.projectFeeAmount - toUser) }
      else o2
    let pmOutAmount1 :=
      if o.project.merchant.isCommissionToUserEnabled = true then
        pmOut.1 + commissions.toUserCommission
      else pmOut.1
    let prjConv ← liftE (env.convert pm.currency.codeInt p.merchant.currency.codeInt o3.projectFeeAmount)
    let o4 := { o3 with projectFeeAmount := FormatAmount prjConv }
    let vres ← (if o.project.merchant.isVatEnabled = true then do
        let v ← liftE (env.calculateVat o.payerData.countryCodeA2 o.payerData.subdivision pmOut.1)
        pure (pmOutAmount1 + v, some v)
      else pure (pmOutAmount1, (none : Option ℚ)))
    let o5 := match vres.2 with
      | some v => { o4 with vatAmount := FormatAmount v }
      | none => o4
    Except.ok { o5 with
      paymentMethod := some
        { id := pm.id, name := pm.name, params := pm.params,
          paymentSystem := pm.paymentSystem, groupAlias := pm.groupAlias },
      paymentMethodOutcomeAmount := FormatAmount vres.1,
      paymentMethodOutcomeCurrency := some pmOut.2 }

/- ---------------------------------------------------------------------
   Listing filters (`OrderManager.ProcessFilters`).
--------------------------------------------------------------------- -/

/-- A value stored in the query document built by `ProcessFilters`. -/
inductive BVal where
  | oid (s : String)
  | oidSet (l : List String)
  | strSet (l : List String)
  | intSet (l : List Int)
  | regexOr (pattern : String)
  | dateRange (gte lte : Option Int)
deriving DecidableEq, Repr

/-- Modelled from the spec: the `model.OrderFilterField*` constants live in
the missing `model` package; the exact key strings are immaterial to the
filter structure, only their distinctness matters. -/
def OrderFilterFieldId : String := "id"

def OrderFilterFieldPaymentMethods : String := "payment_method"

def OrderFilterFieldCountries : String := "country"

def OrderFilterFieldStatuses : String := "status"

def OrderFilterFieldAccount : String := "account"

def OrderFilterFieldPMDateFrom : String := "pm_date_from"

def OrderFilterFieldPMDateTo : String := "pm_date_to"

def OrderFilterFieldProjectDateFrom : String := "project_date_from"

def OrderFilterFieldProjectDateTo : String := "project_date_to"

def parseNatDigits : List Char → Option Nat
  | [] => none
  | cs =>
    if cs.all Char.isDigit then
      some (cs.foldl (fun a c => a * 10 + (c.toNat - 48)) 0)
    else none

/-- `strconv.ParseInt` on a decimal string, yielding `none` on malformed input. -/
def parseDecInt (s : String) : Option Int :=
  match s.data with
  | '-' :: rest => (parseNatDigits rest).map (fun n => -(n : Int))
  | '+' :: rest => (parseNatDigits rest).map (fun n => (n : Int))
  | cs => (parseNatDigits cs).map (fun n => (n : Int))

/-- `OrderManager.ProcessFilters`: extend the base query with the optional
filters found among the request values.  Both date ranges are written under
the `pm_order_close_date` key, the project range after (and so over) the
payment-method range. -/
def ProcessFilters (values : List (String × List String))
    (filter : List (String × BVal)) : Except PFail (List (String × BVal)) := do
  let f1 ← (match alookup values OrderFilterFieldId with
    | some l => do
      let v ← deref l.head?
      pure (ainsert filter "_id" (BVal.oid v))
    | none => pure filter)
  let f2 := match alookup values OrderFilterFieldPaymentMethods with
    | some pms => ainsert f1 "payment_method.id" (BVal.oidSet pms)
    | none => f1
  let f3 := match alookup values OrderFilterFieldCountries with
    | some cs => ainsert f2 "payer_data.country_code_a2" (BVal.strSet cs)
    | none => f2
  let f4 := match alookup values OrderFilterFieldStatuses with
    | some ss =>
      let ssi := ss.filterMap parseDecInt
      if ssi.length > 0 then ainsert f3 "status" (BVal.intSet ssi) else f3
    | none => f3
  let f5 ← (match alookup values OrderFilterFieldAccount with
    | some l => do
      let a ← deref l.head?
      pure (ainsert f4 "$or" (BVal.regexOr (".*" ++ a ++ ".*")))
    | none => pure f4)
  let pmFrom ← (match alookup values OrderFilterFieldPMDateFrom with
    | some l => do
      let s ← deref l.head?
      pure (parseDecInt s)
    | none => pure (none : Option Int))
  let pmTo ← (match alookup values OrderFilterFieldPMDateTo with
    | some l => do
      let s ← deref l.head?
      pure (parseDecInt s)
    | none => pure (none : Option Int))
  let f6 :=
    if pmFrom.isSome || pmTo.isSome then
      ainsert f5 "pm_order_close_date" (BVal.dateRange pmFrom pmTo)
    else f5
  let prjFrom ← (match alookup values OrderFilterFieldProjectDateFrom with
    | some l => do
      let s ← deref l.head?
      pure (parseDecInt s)
    | none => pure (none : Option Int))
  let prjTo ← (match alookup values OrderFilterFieldProjectDateTo with
    | some l => do
      let s ← deref l.head?
      pure (parseDecInt s)
    | none => pure (none : Option Int))
  let f7 :=
    if prjFrom.isSome || prjTo.isSome then
      ainsert f6 "pm_order_close_date" (BVal.dateRange prjFrom prjTo)
    else f6
  pure f7

/- ---------------------------------------------------------------------
   Revenue dynamics aggregation (`OrderManager.GetRevenueDynamic`).
--------------------------------------------------------------------- -/

/-- `model.RevenueDynamicPointDate`: all period fields are plain integers
with zero defaults. -/
structure RevenueDynamicPointDate where
  year : Int
  month : Int
  week : Int
  day : Int
  hour : Int
deriving DecidableEq, Repr

/-- A time-bucket identifier of the pre-aggregated backend result: the year
is always present, the finer period fields only for some groupings. -/
structure PointId where
  year : Int
  month : Option Int
  week : Option Int
  day : Option Int
  hour : Option Int
deriving DecidableEq, Repr

/-- `OrderManager.getRevenueDynamicPointsKey`: copy whichever period fields
are present, leaving the rest at their zero value. -/
def getRevenueDynamicPointsKey (pointId : PointId) : RevenueDynamicPointDate :=
  { year := pointId.year, month := pointId.month.getD 0,
    week := pointId.week.getD 0, day := pointId.day.getD 0,
    hour := pointId.hour.getD 0 }

/-- Modelled from the spec: `RevenueDynamicPointDate.String()` (in the
missing `model` package) renders the exact combination of period fields;
any rendering injective in the five fields serves as bucket identity. -/
def RevenueDynamicPointDate.toKeyString (d : RevenueDynamicPointDate) : String :=
  toString d.year ++ "-" ++ toString d.month ++ "-" ++ toString d.week
    ++ "-" ++ toString d.day ++ "-" ++ toString d.hour

/-- One revenue or refund facet bucket (`_id` and `total`). -/
structure RevenueBucket where
  id : PointId
  total : ℚ
deriving DecidableEq, Repr

/-- A revenue or refund summary facet (`count`, `total`, `avg`). -/
structure RevenueSummary where
  count : Int
  total : ℚ
  avg : ℚ
deriving DecidableEq, Repr

/-- The pre-aggregated backend result consumed by `GetRevenueDynamic`
(the four facets of `res[0]`). -/
structure RevenueFacet where
  pointsRefund : List RevenueBucket
  pointsRevenue : List RevenueBucket
  revenue : RevenueSummary
  refund : RevenueSummary
deriving DecidableEq, Repr

/-- `model.RevenueDynamicPoint`. -/
structure RevenueDynamicPoint where
  date : RevenueDynamicPointDate
  amount : ℚ
deriving DecidableEq, Repr

/-- `model.RevenueDynamicMainData`. -/
structure RevenueDynamicMainData where
  count : Int
  total : ℚ
  avg : ℚ
deriving DecidableEq, Repr

/-- `model.RevenueDynamicResult`. -/
structure RevenueDynamicResult where
  points : List RevenueDynamicPoint
  revenue : RevenueDynamicMainData
  refund : RevenueDynamicMainData
deriving DecidableEq, Repr

/-- `OrderManager.GetRevenueDynamic`: index the refund buckets by key, then
produce one net point per revenue bucket (revenue minus the refund under
the same key, else revenue alone) and the two summaries. -/
def GetRevenueDynamic (res : RevenueFacet) : RevenueDynamicResult :=
  let refPoints := res.pointsRefund.foldl
    (fun m b => ainsert m (getRevenueDynamicPointsKey b.id).toKeyString (FormatAmount b.total))
    ([] : List (String × ℚ))
  let revPoints := res.pointsRevenue.map (fun b =>
    let d := getRevenueDynamicPointsKey b.id
    match alookup refPoints d.toKeyString with
    | some refVal => { date := d, amount := FormatAmount (b.total - refVal) }
    | none => { date := d, amount := FormatAmount b.total })
  { points := revPoints,
    revenue := { count := res.revenue.count, total := FormatAmount res.revenue.total,
                 avg := FormatAmount res.revenue.avg },
    refund := { count := res.refund.count, total := FormatAmount res.refund.total,
                avg := FormatAmount res.refund.avg } }

/- ---------------------------------------------------------------------
   Shared proof infrastructure.
--------------------------------------------------------------------- -/

@[simp] theorem exceptBindOk {ε α β : Type} (a : α) (f : α → Except ε β) :
    (Except.ok a >>= f : Except ε β) = f a := rfl

@[simp] theorem exceptBindErr {ε α β : Type} (e : ε) (f : α → Except ε β) :
    (Except.error e >>= f : Except ε β) = Except.error e := rfl

@[simp] theorem exceptPureEq {ε α : Type} (a : α) :
    (pure a : Except ε α) = Except.ok a := rfl

theorem exceptBindOkElim {ε α β : Type} {a : Except ε α} {f : α → Except ε β} {b : β}
    (h : (a >>= f) = Except.ok b) : ∃ x, a = Except.ok x ∧ f x = Except.ok b := by
  cases a with
  | ok x => exact ⟨x, rfl, h⟩
  | error e => simp at h

@[simp] theorem derefSome {α : Type} (a : α) : deref (some a) = Except.ok a := rfl

@[simp] theorem derefNone {α : Type} : (deref (none : Option α)) = Except.error PFail.nilPanic := rfl

@[simp] theorem liftEOk {α : Type} (a : α) : liftE (Except.ok a) = Except.ok a := rfl

@[simp] theorem liftEErr {α : Type} (e : String) :
    (liftE (Except.error e) : Except PFail α) = Except.error (PFail.fail e) := rfl

theorem roundMono {a b : ℚ} (h : a ≤ b) : round a ≤ round b := by
  rw [round_eq, round_eq]
  exact Int.floor_mono (by linarith)

theorem formatAmountNonneg {q : ℚ} (h : 0 ≤ q) : 0 ≤ FormatAmount q := by
  unfold FormatAmount
  have h2 : (0 : ℤ) ≤ round (q * 100) := by
    have h3 := roundMono (a := 0) (b := q * 100) (by positivity)
    simpa using h3
  have h4 : (0 : ℚ) ≤ ((round (q * 100) : ℤ) : ℚ) := by exact_mod_cast h2
  linarith

theorem formatAmountMono {a b : ℚ} (h : a ≤ b) : FormatAmount a ≤ FormatAmount b := by
  unfold FormatAmount
  have h1 := roundMono (a := a * 100) (b := b * 100) (by linarith)
  have h2 : ((round (a * 100) : ℤ) : ℚ) ≤ ((round (b * 100) : ℤ) : ℚ) := by exact_mod_cast h1
  linarith

/- ---------------------------------------------------------------------
   Concrete fixtures used by witnesses.
--------------------------------------------------------------------- -/

def usd : Currency := { codeInt := 840, codeA3 := "USD" }

def eur : Currency := { codeInt := 978, codeA3 := "EUR" }

def testMerchant : Merchant :=
  { currency := usd, isVatEnabled := false, isCommissionToUserEnabled := false }

def testProject : Project :=
  { id := "p1", name := "Test project", isActive := true, merchant := testMerchant,
    limitsCurrency := usd, minPaymentAmount := 10, maxPaymentAmount := 1000,
    callbackCurrency := usd, isAllowDynamicNotifyUrls := false,
    isAllowDynamicRedirectUrls := false, onlyFixedAmounts := false,
    fixedPackage := [], paymentMethods := [], secretKey := "secret" }

def testGeo : GeoCity :=
  { countryIsoCode := "US", countryName := { en := "United States", ru := "" },
    cityName := { en := "Seattle", ru := "" }, subdivisions := ["WA"],
    timezone := "America/Los_Angeles" }

def baseEnv : Env :=
  { findProjectById := fun pid => if pid = "p1" then some testProject else none,
    findCurrencyByCodeA3 := fun c =>
      if c = "USD" then some usd else if c = "EUR" then some eur else none,
    convert := fun _ _ a => Except.ok a,
    calculateCommission := fun _ _ _ =>
      Except.ok { pspCommission := 0, pmCommission := 0, toUserCommission := 0 },
    calculateVat := fun _ _ _ => Except.ok 0,
    geoCity := fun _ => Except.ok testGeo,
    findPaymentMethodById := fun _ => none,
    findOrderByProjectOrderId := fun _ => none,
    findOrderById := fun _ => none,
    pspAccountingCurrency := some usd,
    getPaymentHandler := fun _ => Except.ok (),
    processPayment := fun o _ => (o, none),
    insertOk := fun _ => true,
    updateOk := fun _ => true,
    now := 7,
    newObjectId := "oid001" }

/- ---------------------------------------------------------------------
   C3: signature verification.
--------------------------------------------------------------------- -/

/-- C3: for every order request carrying a signature, `checkSignature`
recomputes the signature (raw parameter keys sorted lexicographically,
joined as `key=value` with the glue, glue and project secret appended,
SHA-256 hashed) and fails with the signature-invalid error exactly when the
recomputed bytes differ from the supplied ones; the computation is
deterministic. -/
theorem checkSignatureIffInvalid (c : Check) (sig : List Nat)
    (hs : c.order.signature = some sig) :
    (checkSignature c = Except.error (PFail.fail orderErrorSignatureInvalid) ↔
      computeSignature c.order.rawRequestParams c.project.secretKey ≠ sig)
    ∧ (checkSignature c = Except.ok () ↔
      computeSignature c.order.rawRequestParams c.project.secretKey = sig)
    ∧ (∀ params secret, computeSignature params secret = computeSignature params secret) := by
  unfold checkSignature
  rw [hs]
  by_cases h : computeSignature c.order.rawRequestParams c.project.secretKey = sig
  · simp [h]
  · simp [h]

def sigCheckW : Check :=
  { order := { emptyOrderScalar with
      signature := some [7, 7], rawRequestParams := [("a", "1"), ("b", "2")] },
    project := testProject, oCurrency := none, paymentMethod := none }

/-- Witness for the C3 theorem at a concrete check carrying a signature. -/
theorem checkSignatureIffInvalidWitness :
    sigCheckW.order.signature = some [7, 7] ∧
    ((checkSignature sigCheckW = Except.error (PFail.fail orderErrorSignatureInvalid) ↔
       computeSignature sigCheckW.order.rawRequestParams sigCheckW.project.secretKey ≠ [7, 7])
     ∧ (checkSignature sigCheckW = Except.ok () ↔
       computeSignature sigCheckW.order.rawRequestParams sigCheckW.project.secretKey = [7, 7])
     ∧ (∀ params secret, computeSignature params secret = computeSignature params secret)) :=
  ⟨rfl, checkSignatureIffInvalid sigCheckW [7, 7] rfl⟩

/- ---------------------------------------------------------------------
   C9: the two date-range filters.
--------------------------------------------------------------------- -/

def c9Values : List (String × List String) :=
  [(OrderFilterFieldPMDateFrom, ["1000"]), (OrderFilterFieldProjectDateFrom, ["2000"])]

/-- C9: when both the payment-method date range and the project date range
are supplied, `ProcessFilters` stores both under the single
`pm_order_close_date` key, the project range overwriting the payment-method
range: the resulting query keeps only the project range, so the two ranges
do not restrict the query simultaneously. -/
theorem processFiltersDateOverwrite :
    ProcessFilters c9Values [] =
      Except.ok [("pm_order_close_date", BVal.dateRange (some 2000) none)] := by
  rfl

/- ---------------------------------------------------------------------
   C7: revenue dynamics.
--------------------------------------------------------------------- -/

theorem alookupAinsert {α : Type} (m : List (String × α)) (k k2 : String) (v : α) :
    alookup (ainsert m k v) k2 = if k2 = k then some v else alookup m k2 := by
  induction m with
  | nil =>
    simp only [ainsert, alookup, beq_iff_eq]
    by_cases h : k2 = k
    · subst h; simp
    · rw [if_neg (Ne.symm h), if_neg h]
  | cons p ps ih =>
    obtain ⟨p1, p2⟩ := p
    simp only [ainsert, alookup, beq_iff_eq]
    by_cases hpk : p1 = k
    · subst hpk
      simp only [if_pos rfl, alookup, beq_iff_eq]
      by_cases h2 : k2 = p1
      · subst h2; simp
      · rw [if_neg (Ne.symm h2), if_neg h2, if_neg (Ne.symm h2)]
    · rw [if_neg hpk]
      simp only [alookup, beq_iff_eq]
      by_cases h3 : p1 = k2
      · have h4 : ¬ k2 = k := fun hh => hpk (h3.trans hh)
        rw [if_pos h3, if_neg h4, if_pos h3]
      · rw [if_neg h3, if_neg h3, ih]

/-- The refund total recorded for a bucket key: the formatted total of the
last refund bucket carrying that key, if any (later buckets shadow earlier
ones, as repeated Go map assignments do). -/
def refundTotalFor (l : List RevenueBucket) (k : String) : Option ℚ :=
  match l with
  | [] => none
  | b :: bs =>
    match refundTotalFor bs k with
    | some v => some v
    | none =>
      if (getRevenueDynamicPointsKey b.id).toKeyString == k then
        some (FormatAmount b.total)
      else none

theorem refundTotalForCons (b : RevenueBucket) (bs : List RevenueBucket) (k : String) :
    refundTotalFor (b :: bs) k =
      (match refundTotalFor bs k with
       | some v => some v
       | none =>
         if (getRevenueDynamicPointsKey b.id).toKeyString == k then
           some (FormatAmount b.total)
         else none) := rfl

theorem refFoldLookup (l : List RevenueBucket) (m : List (String × ℚ)) (k : String) :
    alookup (l.foldl (fun m b =>
      ainsert m (getRevenueDynamicPointsKey b.id).toKeyString (FormatAmount b.total)) m) k =
    (match refundTotalFor l k with
     | some v => some v
     | none => alookup m k) := by
  induction l generalizing m with
  | nil => simp [refundTotalFor]
  | cons b bs ih =>
    simp only [List.foldl_cons]
    rw [ih, refundTotalForCons]
    cases hbs : refundTotalFor bs k with
    | some v => simp
    | none =>
      simp only [beq_iff_eq]
      rw [alookupAinsert]
      by_cases hk : k = (getRevenueDynamicPointsKey b.id).toKeyString
      · rw [if_pos hk, if_pos hk.symm]
      · rw [if_neg hk, if_neg (Ne.symm hk)]

/-- C7: `GetRevenueDynamic` produces one point per revenue bucket, at the
bucket's period key, whose amount is the bucket's revenue total minus the
refund total recorded under the same key when one exists and the revenue
total alone otherwise, together with the revenue and refund summaries
(count, total, average). -/
theorem revenueDynamicSpec (res : RevenueFacet) :
    ((GetRevenueDynamic res).points.length = res.pointsRevenue.length)
    ∧ (∀ i : Nat, (GetRevenueDynamic res).points[i]? =
        (res.pointsRevenue[i]?).map (fun b =>
          { date := getRevenueDynamicPointsKey b.id,
            amount :=
              match refundTotalFor res.pointsRefund
                  ((getRevenueDynamicPointsKey b.id).toKeyString) with
              | some r => FormatAmount (b.total - r)
              | none => FormatAmount b.total }))
    ∧ (GetRevenueDynamic res).revenue =
        { count := res.revenue.count, total := FormatAmount res.revenue.total,
          avg := FormatAmount res.revenue.avg }
    ∧ (GetRevenueDynamic res).refund =
        { count := res.refund.count, total := FormatAmount res.refund.total,
          avg := FormatAmount res.refund.avg } := by
  have hmap : (GetRevenueDynamic res).points = res.pointsRevenue.map (fun b =>
      { date := getRevenueDynamicPointsKey b.id,
        amount :=
          match refundTotalFor res.pointsRefund
              ((getRevenueDynamicPointsKey b.id).toKeyString) with
          | some r => FormatAmount (b.total - r)
          | none => FormatAmount b.total }) := by
    simp only [GetRevenueDynamic]
    apply List.map_congr_left
    intro b hb
    rw [refFoldLookup]
    cases h : refundTotalFor res.pointsRefund ((getRevenueDynamicPointsKey b.id).toKeyString) with
    | some r => simp
    | none => simp [alookup]
  refine ⟨by rw [hmap]; simp, fun i => by rw [hmap, List.getElem?_map], rfl, rfl⟩

/- ---------------------------------------------------------------------
   C6: payment-method resolution.
--------------------------------------------------------------------- -/

theorem foldlLatestMem (x : ProjectPaymentModes) (xs : List ProjectPaymentModes) :
    xs.foldl (fun opm ppm => if opm.addedAt < ppm.addedAt then ppm else opm) x ∈ x :: xs := by
  induction xs generalizing x with
  | nil => simp
  | cons y ys ih =>
    simp only [List.foldl_cons]
    have h := ih (if x.addedAt < y.addedAt then y else x)
    rcases List.mem_cons.mp h with h1 | h1
    · rw [h1]
      by_cases hxy : x.addedAt < y.addedAt
      · simp [hxy]
      · simp [hxy]
    · exact List.mem_cons_of_mem _ (List.mem_cons_of_mem _ h1)

theorem foldlLatestGe (x : ProjectPaymentModes) (xs : List ProjectPaymentModes) :
    ∀ y ∈ x :: xs,
      y.addedAt ≤ (xs.foldl (fun opm ppm => if opm.addedAt < ppm.addedAt then ppm else opm) x).addedAt := by
  induction xs generalizing x with
  | nil =>
    intro y hy
    simp at hy
    subst hy
    exact le_refl _
  | cons z zs ih =>
    intro y hy
    simp only [List.foldl_cons]
    rcases List.mem_cons.mp hy with h1 | h1
    · subst h1
      have hx : y.addedAt ≤ (if y.addedAt < z.addedAt then z else y).addedAt := by
        by_cases h : y.addedAt < z.addedAt
        · simp only [if_pos h]; omega
        · simp only [if_neg h]; omega
      exact le_trans hx (ih _ _ (List.mem_cons_self _ _))
    · rcases List.mem_cons.mp h1 with h2 | h2
      · subst h2
        have hz : y.addedAt ≤ (if x.addedAt < y.addedAt then y else x).addedAt := by
          by_cases h : x.addedAt < y.addedAt
          · simp only [if_pos h]; omega
          · simp only [if_neg h]; omega
        exact le_trans hz (ih _ _ (List.mem_cons_self _ _))
      · exact ih _ y (List.mem_cons_of_mem _ h2)

theorem paymentMethodResolutionSpec (env : Env) (c : Check) (name : String)
    (hn : c.order.paymentMethod = some name) :
    ((alookup c.project.paymentMethods name).getD [] = [] →
      checkPaymentMethod env c = Except.error (PFail.fail orderErrorPaymentMethodNotAllowed))
    ∧ (∀ opm, getPaymentMethod c.order c.project.paymentMethods = Except.ok opm →
        ((∃ l, alookup c.project.paymentMethods name = some l ∧ opm ∈ l ∧
            ∀ y ∈ l, y.addedAt ≤ opm.addedAt)
         ∧ (env.findPaymentMethodById opm.id = none →
             checkPaymentMethod env c = Except.error (PFail.fail orderErrorPaymentMethodNotFound))
         ∧ (∀ pm, env.findPaymentMethodById opm.id = some pm →
             ((pm.isActive = false →
                checkPaymentMethod env c = Except.error (PFail.fail orderErrorPaymentMethodInactive))
              ∧ (pm.isActive = true → pm.paymentSystem = none →
                checkPaymentMethod env c = Except.error (PFail.fail orderErrorPaymentSystemNotFound))
              ∧ (∀ ps, pm.isActive = true → pm.paymentSystem = some ps → ps.isActive = false →
                checkPaymentMethod env c = Except.error (PFail.fail orderErrorPaymentSystemInactive))
              ∧ (∀ ps, pm.isActive = true → pm.paymentSystem = some ps → ps.isActive = true →
                checkPaymentMethod env c = Except.ok pm))))) := by
  constructor
  · intro hempty
    unfold checkPaymentMethod getPaymentMethod
    rw [hn]
    cases halo : alookup c.project.paymentMethods name with
    | none => simp [halo]
    | some l =>
      rw [halo] at hempty
      simp at hempty
      subst hempty
      simp [halo]
  · intro opm hopm
    unfold getPaymentMethod at hopm
    rw [hn] at hopm
    simp only [derefSome, exceptBindOk] at hopm
    cases halo : alookup c.project.paymentMethods name with
    | none => rw [halo] at hopm; simp at hopm
    | some l =>
      rw [halo] at hopm
      cases l with
      | nil => simp at hopm
      | cons x xs =>
        simp only [Except.ok.injEq] at hopm
        constructor
        · refine ⟨x :: xs, rfl, ?_, ?_⟩
          · rw [← hopm]; exact foldlLatestMem x xs
          · intro y hy; rw [← hopm]; exact foldlLatestGe x xs y hy
        · have hcpm : checkPaymentMethod env c =
            (match env.findPaymentMethodById opm.id with
             | none => Except.error (PFail.fail orderErrorPaymentMethodNotFound)
             | some pm =>
               if pm.isActive = false then Except.error (PFail.fail orderErrorPaymentMethodInactive)
               else match pm.paymentSystem with
               | none => Except.error (PFail.fail orderErrorPaymentSystemNotFound)
               | some ps =>
                 if ps.isActive = false then Except.error (PFail.fail orderErrorPaymentSystemInactive)
                 else Except.ok pm) := by
            unfold checkPaymentMethod getPaymentMethod
            rw [hn]
            simp only [derefSome, exceptBindOk]
            rw [halo]
            simp only [hopm, exceptBindOk]
          refine ⟨?_, ?_⟩
          · intro hfind; rw [hcpm, hfind]
          · intro pm hfind
            refine ⟨?_, ?_, ?_, ?_⟩
            · intro hin; rw [hcpm, hfind]; simp [hin]
            · intro hact hps; rw [hcpm, hfind]; simp [hact, hps]
            · intro ps hact hps hpsin; rw [hcpm, hfind]; simp [hact, hps, hpsin]
            · intro ps hact hps hpsact; rw [hcpm, hfind]; simp [hact, hps, hpsact]

def ppmOld : ProjectPaymentModes := { id := "pm1", addedAt := 5 }

def ppmNew : ProjectPaymentModes := { id := "pm2", addedAt := 9 }

def testPaymentSystem : PaymentSystem := { isActive := true, accountingCurrency := usd }

def testPm : PaymentMethod :=
  { id := "pm2", name := "Bank card", groupAlias := "card", params := "",
    isActive := true, paymentSystem := some testPaymentSystem, currency := usd,
    minPaymentAmount := 1, maxPaymentAmount := 10000 }

def c6Project : Project := { testProject with paymentMethods := [("card", [ppmOld, ppmNew])] }

def c6Env : Env :=
  { baseEnv with findPaymentMethodById := fun i => if i = "pm2" then some testPm else none }

def c6Check : Check :=
  { order := { emptyOrderScalar with paymentMethod := some "card" },
    project := c6Project, oCurrency := none, paymentMethod := none }

/-- Witness for the C6 theorem: with two configurations under "card", the
later-added one wins and resolves to an active method and system. -/
theorem paymentMethodResolutionSpecWitness :
    checkPaymentMethod c6Env c6Check = Except.ok testPm := by
  have h := (paymentMethodResolutionSpec c6Env c6Check "card" rfl).2 ppmNew (by rfl)
  exact (h.2.2 testPm rfl).2.2.2 testPaymentSystem rfl rfl rfl

/- ---------------------------------------------------------------------
   C4: fixed-package resolution.
--------------------------------------------------------------------- -/

/-- The last fixed package (with its index) whose price and currency both
match the request exactly; later entries shadow earlier ones, as the
source's scan does. -/
def lastMatch (amount : ℚ) (cur : String) : List (Nat × FixedPackage) → Option (Nat × FixedPackage)
  | [] => none
  | p :: ps =>
    match lastMatch amount cur ps with
    | some q => some q
    | none => if p.2.price = amount ∧ p.2.currency.codeA3 = cur then some p else none

theorem fpScanEq (c : Check) (cur : String) (hc : c.order.currency = some cur)
    (l : List (Nat × FixedPackage)) (acc : Option (Nat × FixedPackage)) :
    (l.foldlM
      (fun (acc : Option (Nat × FixedPackage)) p => do
        if p.2.price ≠ c.order.amount then pure acc
        else do
          let cur ← deref c.order.currency
          if p.2.currency.codeA3 ≠ cur then pure acc else pure (some p))
      acc : Except PFail (Option (Nat × FixedPackage))) =
    Except.ok (l.foldl
      (fun acc p => if p.2.price = c.order.amount ∧ p.2.currency.codeA3 = cur then some p else acc)
      acc) := by
  have hstep : ∀ (acc : Option (Nat × FixedPackage)) (p : Nat × FixedPackage),
      ((if p.2.price ≠ c.order.amount then pure acc
        else do
          let cur2 ← deref c.order.currency
          if p.2.currency.codeA3 ≠ cur2 then pure acc else pure (some p)) :
        Except PFail (Option (Nat × FixedPackage))) =
      Except.ok (if p.2.price = c.order.amount ∧ p.2.currency.codeA3 = cur then some p else acc) := by
    intro acc p
    by_cases hprice : p.2.price = c.order.amount
    · by_cases hcur : p.2.currency.codeA3 = cur
      · simp [hprice, hcur, hc]
      · simp [hprice, hcur, hc]
    · simp [hprice]
  induction l generalizing acc with
  | nil => rfl
  | cons p ps ih =>
    rw [List.foldlM_cons]
    rw [hstep, exceptBindOk, ih, List.foldl_cons]

theorem fpFoldLast (amount : ℚ) (cur : String) (l : List (Nat × FixedPackage))
    (acc : Option (Nat × FixedPackage)) :
    l.foldl (fun acc p => if p.2.price = amount ∧ p.2.currency.codeA3 = cur then some p else acc) acc =
    (match lastMatch amount cur l with
     | some q => some q
     | none => acc) := by
  induction l generalizing acc with
  | nil => rfl
  | cons p ps ih =>
    rw [List.foldl_cons, ih]
    cases h : lastMatch amount cur ps with
    | some q => simp [lastMatch, h]
    | none =>
      by_cases hcond : p.2.price = amount ∧ p.2.currency.codeA3 = cur
      · simp [lastMatch, h, hcond]
      · simp [lastMatch, h, hcond]

theorem fixedPackageResolutionSpec (env : Env) (c : Check) (g : GeoCity) (region : String)
    (hgeo : env.geoCity c.order.createOrderIp = Except.ok g)
    (hreg : region = resolveRegion c.order.region g) :
    ((∀ rr gg, rr ≠ "" → resolveRegion (some rr) gg = rr)
     ∧ (∀ gg : GeoCity, resolveRegion none gg = gg.countryIsoCode
          ∧ resolveRegion (some "") gg = gg.countryIsoCode))
    ∧ ((alookup c.project.fixedPackage region).getD [] = [] →
      getOrderFixedPackage env c =
        Except.error (PFail.fail orderErrorFixedPackageForRegionNotFound))
    ∧ (∀ fps cur, alookup c.project.fixedPackage region = some fps → fps ≠ [] →
        c.order.currency = some cur →
        ((lastMatch c.order.amount cur fps.enum = none →
           getOrderFixedPackage env c =
             Except.error (PFail.fail orderErrorFixedPackageNotFound))
         ∧ (∀ i ofp, lastMatch c.order.amount cur fps.enum = some (i, ofp) →
             getOrderFixedPackage env c = Except.ok (g,
               { id := i, region := region, name := ofp.name,
                 currencyInt := ofp.currencyInt, price := ofp.price })))) := by
  have hres : resolveRegion c.order.region g = region := hreg.symm
  refine ⟨⟨?_, ?_⟩, ?_, ?_⟩
  · intro rr gg hrr
    simp [resolveRegion, hrr]
  · intro gg
    constructor <;> simp [resolveRegion]
  · intro hempty
    cases halo : alookup c.project.fixedPackage region with
    | none =>
      unfold getOrderFixedPackage
      simp only [hgeo, hres, halo]
    | some l =>
      rw [halo] at hempty
      simp at hempty
      subst hempty
      unfold getOrderFixedPackage
      simp only [hgeo, hres, halo]
  · intro fps cur halo hne hc
    cases fps with
    | nil => exact absurd rfl hne
    | cons f0 fs =>
      unfold getOrderFixedPackage
      simp only [hgeo, hres, halo]
      rw [fpScanEq c cur hc, exceptBindOk, fpFoldLast]
      constructor
      · intro hlast
        rw [hlast]
      · intro i ofp hlast
        rw [hlast]

def c4Pack : FixedPackage :=
  { name := "Pack 500", currencyInt := 840, currency := usd, price := 500 }

def c4PackB : FixedPackage :=
  { name := "Pack 500 B", currencyInt := 840, currency := usd, price := 500 }

def c4Project : Project :=
  { testProject with onlyFixedAmounts := true, fixedPackage := [("US", [c4Pack])] }

def c4Scalar : OrderScalar :=
  { emptyOrderScalar with
    region := some "", currency := some "USD",
    amount := 500, createOrderIp := "8.8.8.8" }

def c4Check : Check :=
  { order := c4Scalar, project := c4Project, oCurrency := some usd, paymentMethod := none }

/-- Counterexample to C4 as stated: the request carries an explicit region
(the empty string), which has no fixed-package list, yet the source falls
back to the GeoIP country code and succeeds instead of failing with the
region-package-not-found error. -/
theorem fixedPackageExplicitRegionCounterexample :
    c4Check.order.region = some "" ∧
    alookup c4Check.project.fixedPackage "" = none ∧
    getOrderFixedPackage baseEnv c4Check =
      Except.ok (testGeo,
        { id := 0, region := "US", name := "Pack 500", currencyInt := 840, price := 500 }) :=
  ⟨rfl, rfl, by rfl⟩

def c4ProjectW : Project :=
  { testProject with onlyFixedAmounts := true, fixedPackage := [("DE", [c4Pack, c4PackB])] }

def c4CheckW : Check :=
  { order := { emptyOrderScalar with region := some "DE", currency := some "USD", amount := 500 },
    project := c4ProjectW, oCurrency := some usd, paymentMethod := none }

/-- Witness for the (amended) C4 theorem: two packages match exactly and the
later one is kept together with its index. -/
theorem fixedPackageResolutionSpecWitness :
    getOrderFixedPackage baseEnv c4CheckW =
      Except.ok (testGeo,
        { id := 1, region := "DE", name := "Pack 500 B", currencyInt := 840, price := 500 }) := by
  have h := (fixedPackageResolutionSpec baseEnv c4CheckW testGeo "DE" rfl (by rfl)).2.2
      [c4Pack, c4PackB] "USD" rfl (by simp) rfl
  exact h.2 1 c4PackB (by rfl)

/- ---------------------------------------------------------------------
   C5, C10 and C1: the Process pipeline on the no-payment-method paths.
--------------------------------------------------------------------- -/

theorem processCoreNoPmPrefix (env : Env) (s : OrderScalar) (p : Project) (cc : String) (cur : Currency)
    (hp : env.findProjectById s.projectId = some p)
    (hact : p.isActive = true)
    (hcc : s.currency = some cc)
    (hcur : env.findCurrencyByCodeA3 cc = some cur)
    (hsig : s.signature = none)
    (hpm : s.paymentMethod = none)
    (hofa : p.onlyFixedAmounts = false) :
    processCore env s = (do
      let _ ← checkProjectLimits env
        { order := checkOrderCopy s, project := p, oCurrency := some cur, paymentMethod := none }
      let _ ← checkProjectOrderIdUnique env s
      let _ ← (if (s.urlVerify.isSome || s.urlNotify.isSome) && !p.isAllowDynamicNotifyUrls then
        Except.error (PFail.fail orderErrorDynamicNotifyUrlsNotAllowed)
      else Except.ok ())
      let _ ← (if (s.urlSuccess.isSome || s.urlFail.isSome) && !p.isAllowDynamicRedirectUrls then
        Except.error (PFail.fail orderErrorDynamicRedirectUrlsNotAllowed)
      else Except.ok ())
      Except.error PFail.nilPanic) := by
  unfold processCore
  simp [hp, hact, hcc, hcur, hsig, hpm, hofa, checkOrderCopy]


theorem processCoreNoPmPrefixFixedNoSub (env : Env) (s : OrderScalar) (p : Project)
    (cc : String) (cur : Currency) (g : GeoCity) (ofp : OrderFixedPackage)
    (hp : env.findProjectById s.projectId = some p)
    (hact : p.isActive = true)
    (hcc : s.currency = some cc)
    (hcur : env.findCurrencyByCodeA3 cc = some cur)
    (hsig : s.signature = none)
    (hpm : s.paymentMethod = none)
    (hofa : p.onlyFixedAmounts = true)
    (hfp : getOrderFixedPackage env
      { order := checkOrderCopy s, project := p, oCurrency := some cur, paymentMethod := none } =
      Except.ok (g, ofp))
    (hsub : g.subdivisions = []) :
    processCore env s = (do
      let _ ← checkProjectLimits env
        { order := checkOrderCopy s, project := p, oCurrency := some cur, paymentMethod := none }
      let _ ← checkProjectOrderIdUnique env s
      let _ ← (if (s.urlVerify.isSome || s.urlNotify.isSome) && !p.isAllowDynamicNotifyUrls then
        Except.error (PFail.fail orderErrorDynamicNotifyUrlsNotAllowed)
      else Except.ok ())
      let _ ← (if (s.urlSuccess.isSome || s.urlFail.isSome) && !p.isAllowDynamicRedirectUrls then
        Except.error (PFail.fail orderErrorDynamicRedirectUrlsNotAllowed)
      else Except.ok ())
      Except.error PFail.nilPanic) := by
  unfold processCore
  simp [hp, hact, hcc, hcur, hsig, hpm, hofa, hfp, hsub]

/-- C5 main theorem. -/
theorem processRejectsBelowMinimum (env : Env) (s : OrderScalar) (p : Project)
    (cc : String) (cur : Currency) (v : ℚ)
    (hp : env.findProjectById s.projectId = some p)
    (hact : p.isActive = true)
    (hcc : s.currency = some cc)
    (hcur : env.findCurrencyByCodeA3 cc = some cur)
    (hsig : s.signature = none)
    (hpm : s.paymentMethod = none)
    (hofa : p.onlyFixedAmounts = false)
    (hconv : (if cur.codeA3 ≠ p.limitsCurrency.codeA3 then
        env.convert cur.codeInt p.limitsCurrency.codeInt s.amount
      else Except.ok s.amount) = Except.ok v)
    (hlow : v < p.minPaymentAmount) :
    Process env s = (Except.error (PFail.fail orderErrorAmountLowerThanMinAllowed), []) := by
  have hlim : checkProjectLimits env
      { order := checkOrderCopy s, project := p, oCurrency := some cur, paymentMethod := none } =
      Except.error (PFail.fail orderErrorAmountLowerThanMinAllowed) := by
    by_cases hne : cur.codeA3 ≠ p.limitsCurrency.codeA3
    · rw [if_pos hne] at hconv
      unfold checkProjectLimits
      simp [checkOrderCopy, hne, hconv, hlow]
    · rw [if_neg hne] at hconv
      cases hconv
      have heq : cur.codeA3 = p.limitsCurrency.codeA3 := not_ne_iff.mp hne
      unfold checkProjectLimits
      simp [checkOrderCopy, heq, hlow]
  unfold Process
  rw [processCoreNoPmPrefix env s p cc cur hp hact hcc hcur hsig hpm hofa, hlim]
  rfl

def c5Order : OrderScalar :=
  { emptyOrderScalar with projectId := "p1", amount := 5, currency := some "USD" }

/-- Witness for C5: amount 5 USD against limits [10, 1000] USD. -/
theorem processRejectsBelowMinimumWitness :
    Process baseEnv c5Order = (Except.error (PFail.fail orderErrorAmountLowerThanMinAllowed), []) :=
  processRejectsBelowMinimum baseEnv c5Order testProject "USD" usd 5
    rfl rfl rfl rfl rfl rfl rfl (by rfl) (by simp [testProject]; norm_num)

/-- C10 main theorem. -/
theorem geoRecordDereferencePrecondition (env : Env) (s : OrderScalar) (p : Project)
    (cc : String) (cur : Currency)
    (hp : env.findProjectById s.projectId = some p)
    (hact : p.isActive = true)
    (hcc : s.currency = some cc)
    (hcur : env.findCurrencyByCodeA3 cc = some cur)
    (hsig : s.signature = none)
    (hpm : s.paymentMethod = none) :
    (p.onlyFixedAmounts = false →
      checkProjectLimits env
        { order := checkOrderCopy s, project := p, oCurrency := some cur, paymentMethod := none } =
        Except.ok () →
      s.orderId = none → s.urlVerify = none → s.urlNotify = none →
      s.urlSuccess = none → s.urlFail = none →
      Process env s = (Except.error PFail.nilPanic, []))
    ∧ (∀ g ofp, p.onlyFixedAmounts = true →
        getOrderFixedPackage env
          { order := checkOrderCopy s, project := p, oCurrency := some cur, paymentMethod := none } =
          Except.ok (g, ofp) →
        g.subdivisions = [] →
        checkProjectLimits env
          { order := checkOrderCopy s, project := p, oCurrency := some cur, paymentMethod := none } =
          Except.ok () →
        s.orderId = none → s.urlVerify = none → s.urlNotify = none →
        s.urlSuccess = none → s.urlFail = none →
        Process env s = (Except.error PFail.nilPanic, [])) := by
  constructor
  · intro hofa hlim hoid hv hn hsu hf
    unfold Process
    rw [processCoreNoPmPrefix env s p cc cur hp hact hcc hcur hsig hpm hofa]
    simp [hlim, checkProjectOrderIdUnique, hoid, hv, hn, hsu, hf]
  · intro g ofp hofa hfp hsub hlim hoid hv hn hsu hf
    unfold Process
    rw [processCoreNoPmPrefixFixedNoSub env s p cc cur g ofp hp hact hcc hcur hsig hpm hofa hfp hsub]
    simp [hlim, checkProjectOrderIdUnique, hoid, hv, hn, hsu, hf]

def c10OrderA : OrderScalar :=
  { emptyOrderScalar with projectId := "p1", amount := 600, currency := some "USD" }

def c10ProjectB : Project :=
  { testProject with onlyFixedAmounts := true, fixedPackage := [("US", [c4Pack])] }

def noSubGeo : GeoCity := { testGeo with subdivisions := [] }

def c10EnvB : Env :=
  { baseEnv with
    geoCity := fun _ => Except.ok noSubGeo,
    findProjectById := fun pid => if pid = "p1" then some c10ProjectB else none }

def c10OrderB : OrderScalar :=
  { emptyOrderScalar with projectId := "p1", amount := 500, currency := some "USD" }

/-- Witness for C10: both undefined-dereference cases at concrete inputs. -/
theorem geoRecordDereferencePreconditionWitness :
    Process baseEnv c10OrderA = (Except.error PFail.nilPanic, [])
    ∧ Process c10EnvB c10OrderB = (Except.error PFail.nilPanic, []) := by
  constructor
  · exact (geoRecordDereferencePrecondition baseEnv c10OrderA testProject "USD" usd
      rfl rfl rfl rfl rfl rfl).1 rfl (by rfl) rfl rfl rfl rfl rfl
  · exact (geoRecordDereferencePrecondition c10EnvB c10OrderB c10ProjectB "USD" usd
      rfl rfl rfl rfl rfl rfl).2 noSubGeo
      { id := 0, region := "US", name := "Pack 500", currencyInt := 840, price := 500 }
      rfl (by rfl) rfl (by rfl) rfl rfl rfl rfl rfl

def c1Order : OrderScalar :=
  { emptyOrderScalar with projectId := "p1", amount := 500, currency := some "USD" }

/-- C1: the spec's end-to-end example (500 USD within limits [10, 1000], no
payment method, project without fixed packages) does not produce an order:
`Process` dereferences the nil GeoIP record while assembling the payer data
and panics, persisting nothing. -/
theorem processEndToEndExamplePanics :
    Process baseEnv c1Order = (Except.error PFail.nilPanic, []) := by rfl

/- ---------------------------------------------------------------------
   C2: the payment-notification pipeline.
--------------------------------------------------------------------- -/

theorem amountsIncomeCurrencyNone (env : Env) (X : Order)
    (h : env.findCurrencyByCodeA3 X.paymentMethodIncomeCurrencyA3 = none) :
    processNotifyPaymentAmounts env X =
      Except.error (PFail.fail orderErrorOrderPaymentMethodIncomeCurrencyNotFound) := by
  unfold processNotifyPaymentAmounts
  simp [h]

theorem amountsPspNone (env : Env) (X : Order) (c : Currency) (poa : ℚ)
    (hc : env.findCurrencyByCodeA3 X.paymentMethodIncomeCurrencyA3 = some c)
    (hconv : env.convert c.codeInt X.projectOutcomeCurrency.codeInt X.paymentMethodIncomeAmount = Except.ok poa)
    (hpsp : env.pspAccountingCurrency = none) :
    processNotifyPaymentAmounts env X =
      Except.error (PFail.fail orderErrorOrderPSPAccountingCurrencyNotFound) := by
  unfold processNotifyPaymentAmounts
  simp [hc, hconv, hpsp]

theorem notifyStatusPreserved (env : Env) (o o' : Order)
    (h : processNotifyPaymentAmounts env o = Except.ok o') : o'.status = o.status := by
  unfold processNotifyPaymentAmounts at h
  cases h1 : env.findCurrencyByCodeA3 o.paymentMethodIncomeCurrencyA3 with
  | none => rw [h1] at h; simp at h
  | some c =>
    rw [h1] at h
    simp only [liftE] at h
    cases h2 : env.convert c.codeInt o.projectOutcomeCurrency.codeInt o.paymentMethodIncomeAmount with
    | error e => rw [h2] at h; simp at h
    | ok poa =>
      rw [h2] at h
      simp only [exceptBindOk] at h
      cases h3 : env.pspAccountingCurrency with
      | none => rw [h3] at h; simp at h
      | some psp =>
        rw [h3] at h
        simp only [liftE] at h
        have h' := h
        clear h
        cases h4 : env.convert c.codeInt psp.codeInt o.paymentMethodIncomeAmount with
        | error e => rw [h4] at h'; simp at h'
        | ok v1 =>
          rw [h4] at h'
          simp only [exceptBindOk] at h'
          cases h5 : env.convert c.codeInt o.project.merchant.currency.codeInt o.paymentMethodIncomeAmount with
          | error e => rw [h5] at h'; simp at h'
          | ok v2 =>
            rw [h5] at h'
            simp only [exceptBindOk] at h'
            cases h6 : o.paymentMethod with
            | none => rw [h6] at h'; simp at h'
            | some opm =>
              rw [h6] at h'
              simp only [derefSome, exceptBindOk] at h'
              cases h7 : opm.paymentSystem with
              | none => rw [h7] at h'; simp at h'
              | some ps =>
                rw [h7] at h'
                simp only [derefSome, exceptBindOk] at h'
                cases h8 : env.convert c.codeInt ps.accountingCurrency.codeInt o.paymentMethodIncomeAmount with
                | error e => rw [h8] at h'; simp at h'
                | ok v3 =>
                  rw [h8] at h'
                  simp only [exceptBindOk, Except.ok.injEq] at h'
                  rw [← h']

theorem notifyMainPath (env : Env) (opn : OrderPaymentNotification) (o : Order)
    (hfound : env.findOrderById opn.id = some o)
    (hstat : o.status = OrderStatusPaymentSystemCreate)
    (hhandler : env.getPaymentHandler o = Except.ok ()) :
    ProcessNotifyPayment env opn =
      (match processNotifyPaymentAmounts env (notifyStatusOrder env o opn) with
       | Except.error e => ((none, some e), [])
       | Except.ok o3 =>
         if env.updateOk { o3 with updatedAt := env.now } then
           ((some { o3 with updatedAt := env.now },
             ((env.processPayment o opn).2).map PFail.fail),
            [{ o3 with updatedAt := env.now }])
         else ((none, some (PFail.fail dbUpdateErrorMsg)), [])) := by
  unfold ProcessNotifyPayment
  simp [hfound, hstat, hhandler]

/-- C2: the payment-notification pipeline fails fatally and persists nothing
when the order is missing, is not in the pre-notification status (the error
carries the current status), the reported income currency is unrecognized,
or the PSP accounting currency is unconfigured; once the amount
recomputation succeeds it persists the updated order (handler rejection
included), with status PaymentSystemReject on a handler error and
PaymentSystemComplete otherwise. -/
theorem processNotifyPaymentSpec (env : Env) (opn : OrderPaymentNotification) :
    (env.findOrderById opn.id = none →
      ProcessNotifyPayment env opn = ((none, some (PFail.fail orderErrorNotFound)), []))
    ∧ (∀ o, env.findOrderById opn.id = some o → o.status ≠ OrderStatusPaymentSystemCreate →
      ProcessNotifyPayment env opn =
        ((none, some (PFail.fail (orderErrorOrderAlreadyHasEndedStatusMsg o.status))), []))
    ∧ (∀ o, env.findOrderById opn.id = some o → o.status = OrderStatusPaymentSystemCreate →
        env.getPaymentHandler o = Except.ok () →
        env.findCurrencyByCodeA3 (notifyStatusOrder env o opn).paymentMethodIncomeCurrencyA3 = none →
        ProcessNotifyPayment env opn =
          ((none, some (PFail.fail orderErrorOrderPaymentMethodIncomeCurrencyNotFound)), []))
    ∧ (∀ o c poa, env.findOrderById opn.id = some o → o.status = OrderStatusPaymentSystemCreate →
        env.getPaymentHandler o = Except.ok () →
        env.findCurrencyByCodeA3 (notifyStatusOrder env o opn).paymentMethodIncomeCurrencyA3 = some c →
        env.convert c.codeInt (notifyStatusOrder env o opn).projectOutcomeCurrency.codeInt
          (notifyStatusOrder env o opn).paymentMethodIncomeAmount = Except.ok poa →
        env.pspAccountingCurrency = none →
        ProcessNotifyPayment env opn =
          ((none, some (PFail.fail orderErrorOrderPSPAccountingCurrencyNotFound)), []))
    ∧ (∀ o o3, env.findOrderById opn.id = some o → o.status = OrderStatusPaymentSystemCreate →
        env.getPaymentHandler o = Except.ok () →
        processNotifyPaymentAmounts env (notifyStatusOrder env o opn) = Except.ok o3 →
        env.updateOk { o3 with updatedAt := env.now } = true →
        (ProcessNotifyPayment env opn =
          ((some { o3 with updatedAt := env.now },
            ((env.processPayment o opn).2).map PFail.fail),
           [{ o3 with updatedAt := env.now }])
         ∧ ({ o3 with updatedAt := env.now }).status =
            (if (env.processPayment o opn).2.isSome then OrderStatusPaymentSystemReject
             else OrderStatusPaymentSystemComplete))) := by
  refine ⟨?_, ?_, ?_, ?_, ?_⟩
  · intro hnone
    unfold ProcessNotifyPayment
    rw [hnone]
  · intro o hfound hne
    unfold ProcessNotifyPayment
    rw [hfound]
    simp [hne]
  · intro o hfound hstat hhandler hcur
    rw [notifyMainPath env opn o hfound hstat hhandler]
    rw [amountsIncomeCurrencyNone env _ hcur]
  · intro o c poa hfound hstat hhandler hcur hconv hpsp
    rw [notifyMainPath env opn o hfound hstat hhandler]
    rw [amountsPspNone env _ c poa hcur hconv hpsp]
  · intro o o3 hfound hstat hhandler hamounts hupd
    constructor
    · rw [notifyMainPath env opn o hfound hstat hhandler, hamounts]
      simp [hupd]
    · have hst := notifyStatusPreserved env _ o3 hamounts
      simp only [notifyStatusOrder] at hst
      simpa using hst

def c2Opn : OrderPaymentNotification := { id := "ord1", body := "" }

def c2OrderPm : OrderPaymentMethod :=
  { id := "pm2", name := "Bank card", params := "", paymentSystem := some testPaymentSystem,
    groupAlias := "card" }

def c2Order : Order :=
  { emptyOrder with
    id := "ord1", status := OrderStatusPaymentSystemCreate,
    projectOutcomeCurrency := usd,
    paymentMethod := some c2OrderPm,
    paymentMethodIncomeAmount := 100,
    paymentMethodIncomeCurrencyA3 := "USD" }

def c2EnvOk : Env :=
  { baseEnv with findOrderById := fun i => if i = "ord1" then some c2Order else none }

def c2EnvRej : Env :=
  { c2EnvOk with processPayment := fun o _ => (o, some "declined") }

def c2AmountsOk : Order :=
  match processNotifyPaymentAmounts c2EnvOk (notifyStatusOrder c2EnvOk c2Order c2Opn) with
  | Except.ok o3 => o3
  | Except.error _ => emptyOrder

def c2PersistedOk : Order := { c2AmountsOk with updatedAt := c2EnvOk.now }

def c2AmountsRej : Order :=
  match processNotifyPaymentAmounts c2EnvRej (notifyStatusOrder c2EnvRej c2Order c2Opn) with
  | Except.ok o3 => o3
  | Except.error _ => emptyOrder

def c2PersistedRej : Order := { c2AmountsRej with updatedAt := c2EnvRej.now }

/-- Witness for C2: a missing order fails fatally with nothing persisted; a
successful notification persists the completed order; a handler rejection
is still persisted, marked rejected. -/
theorem processNotifyPaymentSpecWitness :
    (ProcessNotifyPayment baseEnv c2Opn = ((none, some (PFail.fail orderErrorNotFound)), []))
    ∧ (ProcessNotifyPayment c2EnvOk c2Opn = ((some c2PersistedOk, none), [c2PersistedOk])
       ∧ c2PersistedOk.status = OrderStatusPaymentSystemComplete)
    ∧ (ProcessNotifyPayment c2EnvRej c2Opn =
        ((some c2PersistedRej, some (PFail.fail "declined")), [c2PersistedRej])
       ∧ c2PersistedRej.status = OrderStatusPaymentSystemReject) := by
  refine ⟨?_, ?_, ?_⟩
  · exact (processNotifyPaymentSpec baseEnv c2Opn).1 rfl
  · have h := (processNotifyPaymentSpec c2EnvOk c2Opn).2.2.2.2 c2Order c2AmountsOk
      rfl rfl rfl (by rfl) rfl
    exact ⟨h.1, h.2⟩
  · have h := (processNotifyPaymentSpec c2EnvRej c2Opn).2.2.2.2 c2Order c2AmountsRej
      rfl rfl rfl (by rfl) rfl
    exact ⟨h.1, h.2⟩

/- ---------------------------------------------------------------------
   C8: non-negative fee fields after proration.
--------------------------------------------------------------------- -/

theorem formatAmountZero : FormatAmount 0 = 0 := by
  unfold FormatAmount
  norm_num

theorem liftEOkElim {α : Type} {x : Except String α} {v : α}
    (h : liftE x = Except.ok v) : x = Except.ok v := by
  cases x with
  | ok a => cases h; rfl
  | error e => simp [liftE] at h

theorem derefOkElim {α : Type} {x : Option α} {v : α}
    (h : deref x = Except.ok v) : x = some v := by
  cases x with
  | some a => cases h; rfl
  | none => simp [deref] at h

theorem derefToOptionOkElim {α : Type} {x : Except String α} {v : α}
    (h : deref x.toOption = Except.ok v) : x = Except.ok v := by
  cases x with
  | ok a => cases h; rfl
  | error e => simp [deref, Except.toOption] at h

def feesNonneg (o : Order) : Prop :=
  0 ≤ o.projectFeeAmount ∧ 0 ≤ o.paymentMethodFeeAmount ∧ 0 ≤ o.pspFeeAmount
    ∧ 0 ≤ o.toPayerFeeAmount ∧ 0 ≤ o.vatAmount

/-- C8: with commission, conversion and VAT collaborators behaving per the
spec (componentwise non-negative commissions whose payer-facing part is a
part of the total, conversions and VAT preserving non-negativity), every
order produced by `Process` and every order reworked by
`modifyOrderAfterOrderFormSubmit` (from an order whose fee fields are
non-negative) has non-negative fee fields after proration. -/
theorem feeFieldsNonneg (env : Env)
    (hcom : ∀ a b x c, env.calculateCommission a b x = Except.ok c →
      0 ≤ c.pspCommission ∧ 0 ≤ c.pmCommission ∧ 0 ≤ c.toUserCommission
        ∧ c.toUserCommission ≤ c.pspCommission + c.pmCommission)
    (hconv : ∀ a b x v, env.convert a b x = Except.ok v → 0 ≤ x → 0 ≤ v)
    (hvat : ∀ a b x v, env.calculateVat a b x = Except.ok v → 0 ≤ v) :
    (∀ s o, (Process env s).1 = Except.ok o → feesNonneg o)
    ∧ (∀ o0 pm o, feesNonneg o0 → modifyOrderAfterOrderFormSubmit env o0 pm = Except.ok o →
        feesNonneg o) := by
  constructor
  · intro s o hP
    have h : processCore env s = Except.ok o := by
      unfold Process at hP
      cases hc : processCore env s with
      | error e => rw [hc] at hP; simp at hP
      | ok n =>
        rw [hc] at hP
        by_cases hi : env.insertOk n
        · simp only [hi, if_true, Except.ok.injEq] at hP
          rw [← hP]
        · simp [hi] at hP

    unfold processCore at h
    obtain ⟨p, hp1, h⟩ := exceptBindOkElim h
    obtain ⟨u1, hu1, h⟩ := exceptBindOkElim h
    obtain ⟨oCurrency, hoc, h⟩ := exceptBindOkElim h
    obtain ⟨u2, hsig, h⟩ := exceptBindOkElim h
    obtain ⟨pm, hpm5, h⟩ := exceptBindOkElim h
    obtain ⟨gofp, hgofp, h⟩ := exceptBindOkElim h
    obtain ⟨u3, hlim, h⟩ := exceptBindOkElim h
    obtain ⟨blockRes, hblock, h⟩ := exceptBindOkElim h
    obtain ⟨u4, hdup, h⟩ := exceptBindOkElim h
    obtain ⟨u5, hurl1, h⟩ := exceptBindOkElim h
    obtain ⟨u6, hurl2, h⟩ := exceptBindOkElim h
    obtain ⟨oc, hocd, h⟩ := exceptBindOkElim h
    obtain ⟨g, hg, h⟩ := exceptBindOkElim h
    obtain ⟨sub, hsubv, h⟩ := exceptBindOkElim h
    cases hpmc : s.paymentMethod with
    | none =>
      rw [hpmc] at h hblock
      cases hblock
      cases hdesc : s.description with
      | none =>
        rw [hdesc] at h
        cases h
        simp [feesNonneg, emptyOrder]
        exact formatAmountNonneg le_rfl
      | some d =>
        rw [hdesc] at h
        cases h
        simp [feesNonneg, emptyOrder]
        exact formatAmountNonneg le_rfl
    | some pmName =>
      rw [hpmc] at h hblock
      obtain ⟨pmOut, hpmOut, hblock⟩ := exceptBindOkElim hblock
      obtain ⟨pmo, hpmo, hblock⟩ := exceptBindOkElim hblock
      obtain ⟨com, hcom1, hblock⟩ := exceptBindOkElim hblock
      obtain ⟨vg, hvg, hblock⟩ := exceptBindOkElim hblock
      cases hblock
      have hvg1 : 0 ≤ vg.1 := by
        by_cases hven : p.merchant.isVatEnabled = true
        · rw [if_pos hven] at hvg
          obtain ⟨g2, hg2, hvg⟩ := exceptBindOkElim hvg
          obtain ⟨sub2, hsub2, hvg⟩ := exceptBindOkElim hvg
          obtain ⟨v, hv, hvg⟩ := exceptBindOkElim hvg
          cases hvg
          exact hvat _ _ _ _ (liftEOkElim hv)
        · rw [if_neg hven] at hvg
          cases hvg
          exact le_refl _
      obtain ⟨hpsp0, hpm0, htu0, htule⟩ := hcom _ _ _ _ (liftEOkElim hcom1)
      obtain ⟨pmo2, hpmo2, h⟩ := exceptBindOkElim h
      obtain ⟨pmOut2, hpmOut2, h⟩ := exceptBindOkElim h
      obtain ⟨pspConv, hpspConv, h⟩ := exceptBindOkElim h
      have hpspConv0 : 0 ≤ pspConv := hconv _ _ _ _ (liftEOkElim hpspConv) hpm0
      have hfeemono : FormatAmount com.toUserCommission ≤
          FormatAmount (com.pspCommission + com.pmCommission) := formatAmountMono htule
      by_cases hcu : p.merchant.isCommissionToUserEnabled = true
      · simp only [if_pos hcu] at h
        obtain ⟨prjConv, hprjConv, h⟩ := exceptBindOkElim h
        have hprj0 : 0 ≤ prjConv := hconv _ _ _ _ (liftEOkElim hprjConv)
          (formatAmountNonneg (by linarith [hfeemono]))
        cases h
        cases hdesc : s.description <;>
          exact ⟨by simp [hdesc]; exact formatAmountNonneg hprj0,
                 by simp [hdesc]; exact formatAmountNonneg hpm0,
                 by simp [hdesc]; exact formatAmountNonneg hpspConv0,
                 by simp [hdesc]; exact formatAmountNonneg htu0,
                 by simp [hdesc]; exact formatAmountNonneg hvg1⟩
      · simp only [if_neg hcu] at h
        obtain ⟨prjConv, hprjConv, h⟩ := exceptBindOkElim h
        have hprj0 : 0 ≤ prjConv := hconv _ _ _ _ (liftEOkElim hprjConv)
          (formatAmountNonneg (by linarith))
        cases h
        cases hdesc : s.description <;>
          exact ⟨by simp [hdesc]; exact formatAmountNonneg hprj0,
                 by simp [hdesc]; exact formatAmountNonneg hpm0,
                 by simp [hdesc]; exact formatAmountNonneg hpspConv0,
                 by simp [hdesc, emptyOrder],
                 by simp [hdesc]; exact formatAmountNonneg hvg1⟩
  · intro o0 pm o h0 h

    obtain ⟨hf1, hf2, hf3, hf4, hf5⟩ := h0
    unfold modifyOrderAfterOrderFormSubmit at h
    by_cases heq : (o0.paymentMethod.map OrderPaymentMethod.id) = some pm.id
    · rw [if_pos heq] at h
      cases h
      exact ⟨hf1, hf2, hf3, hf4, hf5⟩
    · rw [if_neg heq] at h
      obtain ⟨p, hp, h⟩ := exceptBindOkElim h
      obtain ⟨pmOut, hpmOut, h⟩ := exceptBindOkElim h
      obtain ⟨com, hcom1, h⟩ := exceptBindOkElim h
      obtain ⟨hpsp0, hpm0, htu0, htule⟩ := hcom _ _ _ _ (derefToOptionOkElim hcom1)
      obtain ⟨pspConv, hpspConv, h⟩ := exceptBindOkElim h
      have hpspConv0 : 0 ≤ pspConv := hconv _ _ _ _ (liftEOkElim hpspConv) hpm0
      have hfeemono := formatAmountMono htule
      by_cases hcu : o0.project.merchant.isCommissionToUserEnabled = true
      · simp only [if_pos hcu] at h
        obtain ⟨prjConv, hprjConv, h⟩ := exceptBindOkElim h
        have hprj0 : 0 ≤ prjConv := hconv _ _ _ _ (liftEOkElim hprjConv)
          (formatAmountNonneg (by linarith [hfeemono]))
        obtain ⟨vres, hvres, h⟩ := exceptBindOkElim h
        by_cases hven : o0.project.merchant.isVatEnabled = true
        · rw [if_pos hven] at hvres
          obtain ⟨v, hv, hvres⟩ := exceptBindOkElim hvres
          have hv0 : 0 ≤ v := hvat _ _ _ _ (liftEOkElim hv)
          cases hvres
          cases h
          exact ⟨by simp; exact formatAmountNonneg hprj0,
                 by simp; exact formatAmountNonneg hpm0,
                 by simp; exact formatAmountNonneg hpspConv0,
                 by simp; exact formatAmountNonneg htu0,
                 by simp; exact formatAmountNonneg hv0⟩
        · rw [if_neg hven] at hvres
          cases hvres
          cases h
          exact ⟨by simp; exact formatAmountNonneg hprj0,
                 by simp; exact formatAmountNonneg hpm0,
                 by simp; exact formatAmountNonneg hpspConv0,
                 by simp; exact formatAmountNonneg htu0,
                 by simpa using hf5⟩
      · simp only [if_neg hcu] at h
        obtain ⟨prjConv, hprjConv, h⟩ := exceptBindOkElim h
        have hprj0 : 0 ≤ prjConv := hconv _ _ _ _ (liftEOkElim hprjConv)
          (formatAmountNonneg (by linarith))
        obtain ⟨vres, hvres, h⟩ := exceptBindOkElim h
        by_cases hven : o0.project.merchant.isVatEnabled = true
        · rw [if_pos hven] at hvres
          obtain ⟨v, hv, hvres⟩ := exceptBindOkElim hvres
          have hv0 : 0 ≤ v := hvat _ _ _ _ (liftEOkElim hv)
          cases hvres
          cases h
          exact ⟨by simp; exact formatAmountNonneg hprj0,
                 by simp; exact formatAmountNonneg hpm0,
                 by simp; exact formatAmountNonneg hpspConv0,
                 by simpa using hf4,
                 by simp; exact formatAmountNonneg hv0⟩
        · rw [if_neg hven] at hvres
          cases hvres
          cases h
          exact ⟨by simp; exact formatAmountNonneg hprj0,
                 by simp; exact formatAmountNonneg hpm0,
                 by simp; exact formatAmountNonneg hpspConv0,
                 by simpa using hf4,
                 by simpa using hf5⟩

def c8Merchant : Merchant :=
  { currency := usd, isVatEnabled := true, isCommissionToUserEnabled := true }

def c8Project : Project :=
  { testProject with
    merchant := c8Merchant,
    onlyFixedAmounts := true,
    fixedPackage := [("US", [c4Pack])],
    paymentMethods := [("card", [ppmNew])] }

def c8Env : Env :=
  { baseEnv with
    findProjectById := fun pid => if pid = "p1" then some c8Project else none,
    findPaymentMethodById := fun i => if i = "pm2" then some testPm else none,
    calculateCommission := fun _ _ _ =>
      Except.ok { pspCommission := 2, pmCommission := 3, toUserCommission := 1 },
    calculateVat := fun _ _ _ => Except.ok 7 }

def c8Order : OrderScalar :=
  { emptyOrderScalar with
    projectId := "p1", amount := 500, currency := some "USD",
    paymentMethod := some "card", createOrderIp := "8.8.8.8" }

def c8ResultOrder : Order :=
  match (Process c8Env c8Order).1 with
  | Except.ok o => o
  | Except.error _ => emptyOrder

/-- Witness for C8: a complete successful run of the pipeline, with a
payment method, commissions partly passed to the payer and VAT enabled,
yields non-negative fee fields. -/
theorem feeFieldsNonnegWitness : feesNonneg c8ResultOrder := by
  have hcom : ∀ a b x c, c8Env.calculateCommission a b x = Except.ok c →
      0 ≤ c.pspCommission ∧ 0 ≤ c.pmCommission ∧ 0 ≤ c.toUserCommission
        ∧ c.toUserCommission ≤ c.pspCommission + c.pmCommission := by
    intro a b x c h
    cases h
    norm_num
  have hconv : ∀ a b x v, c8Env.convert a b x = Except.ok v → 0 ≤ x → 0 ≤ v := by
    intro a b x v h hx
    cases h
    exact hx
  have hvat : ∀ a b x v, c8Env.calculateVat a b x = Except.ok v → 0 ≤ v := by
    intro a b x v h
    cases h
    norm_num
  exact (feeFieldsNonneg c8Env hcom hconv hvat).1 c8Order c8ResultOrder (by rfl)

end P1pay
